import Mathlib

/-!
Shallow embedding of the tollo voxel-world engine (Block data, Perlin-style
noise, biome classification, chunk meshing, world streaming and the player
collision step), with theorems checking the specification's claims against it.

Conventions of the embedding:
* JS numbers are modelled as rationals (`ℚ`) where fractional arithmetic
  occurs, and as integers (`ℤ`/`ℕ`) where the source only ever holds integers.
* JS `Math.floor` is `Int.floor`; the JS remainder operator on integers is
  `Int.tmod` (truncated, sign of the dividend); `n & 255` on an integer is
  `emod 256` (two's-complement bit-and against an all-ones mask).
* Absent values (`null`/missing map entries) are `Option.none`.
* `Math.random()` is an explicit stream of draws `ℕ → ℚ` consumed at an
  explicitly threaded counter, so random programs are pure functions of the
  stream.
-/

/-! ## Block.js: block types, per-type data, Block values -/

/-- Block type tags, mirroring the BlockType enum of Block.js. -/
inductive BlockType where
  | AIR | GRASS | DIRT | STONE | WOOD | LEAVES | WATER | SAND
deriving DecidableEq, Repr

/-- Static per-type block attributes, mirroring one entry of BlockData. -/
structure BlockInfo where
  name : String
  solid : Bool
  transparent : Bool
  color : ℕ
  topColor : Option ℕ := none
  sideColor : Option ℕ := none
  bottomColor : Option ℕ := none
deriving DecidableEq, Repr

/-- The BlockData table of Block.js. -/
def BlockData : BlockType → BlockInfo
  | .AIR    => { name := "Air", solid := false, transparent := true, color := 0x000000 }
  | .GRASS  => { name := "Grass", solid := true, transparent := false, color := 0x7CB342,
                 sideColor := some 0x8BC34A, bottomColor := some 0x8D6E63 }
  | .DIRT   => { name := "Dirt", solid := true, transparent := false, color := 0x8D6E63 }
  | .STONE  => { name := "Stone", solid := true, transparent := false, color := 0x757575 }
  | .WOOD   => { name := "Wood", solid := true, transparent := false, color := 0x8D6E63,
                 topColor := some 0x6D4C41, bottomColor := some 0x6D4C41 }
  | .LEAVES => { name := "Leaves", solid := true, transparent := false, color := 0x4CAF50 }
  | .WATER  => { name := "Water", solid := false, transparent := true, color := 0x2196F3 }
  | .SAND   => { name := "Sand", solid := true, transparent := false, color := 0xF4E99B }

/-- A detached Block value: a type tag plus the coordinates it was built with. -/
structure Block where
  type : BlockType
  x : ℤ
  y : ℤ
  z : ℤ
deriving DecidableEq, Repr

namespace Block

/-- Block.isBlockSolid. -/
def isBlockSolid (t : BlockType) : Bool := (BlockData t).solid

/-- Block.isBlockTransparent. -/
def isBlockTransparent (t : BlockType) : Bool := (BlockData t).transparent

/-- Face selector passed to getBlockColor; `main` is the default parameter. -/
inductive FaceTag where
  | top | bottom | side | main
deriving DecidableEq, Repr

/-- Block.getBlockColor: per-face color with top/side/bottom fallbacks. -/
def getBlockColor (t : BlockType) (face : FaceTag := .main) : ℕ :=
  let data := BlockData t
  match face with
  | .top => data.topColor.getD data.color
  | .bottom => data.bottomColor.getD data.color
  | .side => data.sideColor.getD data.color
  | .main => data.color

end Block

/-! ## NoiseGenerator.js -/

namespace NoiseGenerator

/-- Quintic fade curve 6t^5 - 15t^4 + 10t^3 as written in the source. -/
def fade (t : ℚ) : ℚ := t * t * t * (t * (t * 6 - 15) + 10)

/-- Linear interpolation a + t*(b-a). -/
def lerp (a b t : ℚ) : ℚ := a + t * (b - a)

/-- Gradient dot product selected from the low two bits of the hash. -/
def grad (hash : ℕ) (x y : ℚ) : ℚ :=
  let h := hash &&& 3
  let u := if h < 2 then x else y
  let v := if h < 2 then y else x
  (if h &&& 1 = 0 then u else -u) + (if h &&& 2 = 0 then v else -v)

/-- NoiseGenerator.noise2D over an abstract permutation table (any seed
produces some table; the claims hold for all of them).  The JS bit-and of a
floored coordinate against 255 is integer emod 256. -/
def noise2D (perm : ℕ → ℕ) (x y : ℚ) : ℚ :=
  let X : ℕ := (⌊x⌋ % 256).toNat
  let Y : ℕ := (⌊y⌋ % 256).toNat
  let xf : ℚ := x - (⌊x⌋ : ℤ)
  let yf : ℚ := y - (⌊y⌋ : ℤ)
  let u := fade xf
  let v := fade yf
  let A := perm X + Y
  let AA := perm A
  let AB := perm (A + 1)
  let B := perm (X + 1) + Y
  let BA := perm B
  let BB := perm (B + 1)
  lerp
    (lerp (grad (perm AA) xf yf) (grad (perm BA) (xf - 1) yf) u)
    (lerp (grad (perm AB) xf (yf - 1)) (grad (perm BB) (xf - 1) (yf - 1)) u)
    v

end NoiseGenerator

/-! ## Biomes and the biome classifier (World.js) -/

/-- An immutable biome descriptor. -/
structure Biome where
  id : ℕ
  name : String
  temperature : ℚ
  humidity : ℚ
deriving DecidableEq, Repr

namespace Biomes

def PLAINS : Biome := ⟨0, "Plains", 7/10, 4/10⟩
def FOREST : Biome := ⟨1, "Forest", 6/10, 8/10⟩
def DESERT : Biome := ⟨2, "Desert", 9/10, 1/10⟩
def MOUNTAINS : Biome := ⟨3, "Mountains", 3/10, 5/10⟩
def OCEAN : Biome := ⟨4, "Ocean", 5/10, 1⟩

end Biomes

namespace World

/-- Temperature sample of World.getBiome: noise remapped from [-1,1] to [0,1]. -/
def biomeTemperature (perm : ℕ → ℕ) (x z : ℚ) : ℚ :=
  (NoiseGenerator.noise2D perm (x * (3/1000)) (z * (3/1000)) + 1) / 2

/-- Humidity sample of World.getBiome: offset noise remapped to [0,1]. -/
def biomeHumidity (perm : ℕ → ℕ) (x z : ℚ) : ℚ :=
  (NoiseGenerator.noise2D perm (x * (5/1000) + 1000) (z * (5/1000) + 1000) + 1) / 2

/-- World.getBiome: ordered rule cascade on temperature and humidity. -/
def getBiome (perm : ℕ → ℕ) (x z : ℚ) : Biome :=
  let temperature := biomeTemperature perm x z
  let humidity := biomeHumidity perm x z
  if temperature > 8/10 ∧ humidity < 3/10 then Biomes.DESERT
  else if temperature < 4/10 then Biomes.MOUNTAINS
  else if humidity > 7/10 ∧ temperature > 5/10 then Biomes.FOREST
  else Biomes.PLAINS

end World

/-- Ordered classification rules exactly as the spec words them (section 4.2),
to compare with the implementation of World.getBiome. -/
def classifySpec (temperature humidity : ℚ) : Biome :=
  if temperature > 8/10 ∧ humidity < 3/10 then Biomes.DESERT
  else if temperature < 4/10 then Biomes.MOUNTAINS
  else if humidity > 7/10 ∧ temperature > 5/10 then Biomes.FOREST
  else Biomes.PLAINS

/-! ## World coordinate decomposition (World.getBlock / World.setBlock) -/

namespace World

/-- Chunk coordinate of a world coordinate: Math.floor(x / chunkSize) with
chunkSize 16. -/
def chunkCoord (x : ℤ) : ℤ := Int.fdiv x 16

/-- Local coordinate: ((x % chunkSize) + chunkSize) % chunkSize, where % is
the JS truncated remainder (Int.tmod). -/
def localCoord (x : ℤ) : ℤ := Int.tmod (Int.tmod x 16 + 16) 16

end World

/-! ## Chunk.js: the voxel grid, bounds-checked access, and the mesher -/

/-- The dense size × height × size block array, as a total map from local
integer coordinates to an optional Block (all out-of-range slots are
irrelevant because every access is bounds-checked first). -/
def ChunkGrid := ℤ → ℤ → ℤ → Option Block

/-- A Chunk: its chunk coordinates, horizontal size, fixed height 128, the
voxel grid and the dirty flag. -/
structure Chunk where
  x : ℤ
  z : ℤ
  size : ℤ := 16
  height : ℤ := 128
  blocks : ChunkGrid
  needsUpdate : Bool := true

namespace Chunk

/-- Chunk.setBlock: bounds-checked write, silently ignored out of range;
marks the chunk dirty. -/
def setBlock (c : Chunk) (x y z : ℤ) (b : Option Block) : Chunk :=
  if x < 0 ∨ x ≥ c.size ∨ y < 0 ∨ y ≥ c.height ∨ z < 0 ∨ z ≥ c.size then c
  else { c with
    blocks := fun a b' c' => if a = x ∧ b' = y ∧ c' = z then b else c.blocks a b' c',
    needsUpdate := true }

/-- Chunk.getBlock: bounds-checked read, none out of range. -/
def getBlock (c : Chunk) (x y z : ℤ) : Option Block :=
  if x < 0 ∨ x ≥ c.size ∨ y < 0 ∨ y ≥ c.height ∨ z < 0 ∨ z ≥ c.size then none
  else c.blocks x y z

/-- Chunk.shouldRenderFace, taking world coordinates of the neighbor slot:
outside the height range or the chunk's own horizontal bounds counts as air;
otherwise the face renders exactly when the stored neighbor is absent or has
type AIR. -/
def shouldRenderFace (c : Chunk) (x y z : ℤ) : Bool :=
  if y < 0 ∨ y ≥ c.height then true
  else
    let localX := x - c.x * c.size
    let localZ := z - c.z * c.size
    if localX < 0 ∨ localX ≥ c.size ∨ localZ < 0 ∨ localZ ≥ c.size then true
    else
      (c.blocks localX y localZ).elim true
        fun adjacentBlock => decide (adjacentBlock.type = BlockType.AIR)

end Chunk

/-- The six face orientations, in the order of the faces table of
Chunk.addBlockFaces. -/
inductive FaceDir where
  | right | left | top | bottom | front | back
deriving DecidableEq, Repr

namespace FaceDir

/-- Face normal vectors from the faces table. -/
def normal : FaceDir → ℤ × ℤ × ℤ
  | .right => (1, 0, 0)
  | .left => (-1, 0, 0)
  | .top => (0, 1, 0)
  | .bottom => (0, -1, 0)
  | .front => (0, 0, 1)
  | .back => (0, 0, -1)

/-- The four vertex offsets of each face quad, from the faces table. -/
def vertices : FaceDir → List (ℤ × ℤ × ℤ)
  | .right => [(1,0,0), (1,1,0), (1,1,1), (1,0,1)]
  | .left => [(0,0,1), (0,1,1), (0,1,0), (0,0,0)]
  | .top => [(0,1,0), (1,1,0), (1,1,1), (0,1,1)]
  | .bottom => [(0,0,1), (1,0,1), (1,0,0), (0,0,0)]
  | .front => [(0,0,1), (0,1,1), (1,1,1), (1,0,1)]
  | .back => [(1,0,0), (1,1,0), (0,1,0), (0,0,0)]

/-- The neighbor offset probed for each face (the check field). -/
def checkOffset : FaceDir → ℤ × ℤ × ℤ
  | .right => (1, 0, 0)
  | .left => (-1, 0, 0)
  | .top => (0, 1, 0)
  | .bottom => (0, -1, 0)
  | .front => (0, 0, 1)
  | .back => (0, 0, -1)

/-- Face tag passed to getBlockColor: only the top and bottom entries of the
faces table carry a face field; the other four fall back to the default
parameter of getBlockColor. -/
def tag : FaceDir → Block.FaceTag
  | .top => .top
  | .bottom => .bottom
  | _ => .main

end FaceDir

/-- The faces table order of Chunk.addBlockFaces. -/
def faceDirs : List FaceDir := [.right, .left, .top, .bottom, .front, .back]

/-- One emitted face quad (two triangles, four vertices, six indices): the
world position of its block, its orientation and its per-vertex color. -/
structure Quad where
  blockX : ℤ
  blockY : ℤ
  blockZ : ℤ
  dir : FaceDir
  color : ℕ
deriving DecidableEq, Repr

namespace Chunk

/-- Chunk.addBlockFaces: the quads emitted for one block, one per face whose
neighbor check passes; the face color comes from getBlockColor with the face
tag (top/bottom) or its default. -/
def addBlockFaces (c : Chunk) (worldX worldY worldZ : ℤ) (block : Block) : List Quad :=
  faceDirs.filterMap fun d =>
    if c.shouldRenderFace (worldX + d.checkOffset.1) (worldY + d.checkOffset.2.1)
        (worldZ + d.checkOffset.2.2) then
      some { blockX := worldX, blockY := worldY, blockZ := worldZ, dir := d,
             color := Block.getBlockColor block.type d.tag }
    else none

/-- Chunk.buildMesh, reduced to the list of face quads it emits: iterate over
every slot of the grid, skip absent and air blocks, and collect the faces of
the rest at their world coordinates.  The source pushes, per quad, 4 vertices
and 6 indices into the buffers. -/
def buildMeshQuads (c : Chunk) : List Quad :=
  (List.range c.size.toNat).flatMap fun x =>
    (List.range c.height.toNat).flatMap fun y =>
      (List.range c.size.toNat).flatMap fun z =>
        (c.blocks (x : ℤ) (y : ℤ) (z : ℤ)).elim [] fun block =>
          if block.type = BlockType.AIR then []
          else c.addBlockFaces (c.x * c.size + (x : ℤ)) (y : ℤ) (c.z * c.size + (z : ℤ)) block

/-- Number of triangle indices the source pushes while building the mesh:
six per emitted quad. -/
def meshIndexCount (c : Chunk) : ℕ := 6 * c.buildMeshQuads.length

end Chunk

/-! ## World.js: the chunk table, block access and streaming -/

/-- Inclusive integer range [a, b] as a list, the iteration space of the JS
for loops over integer bounds. -/
def intRange (a b : ℤ) : List ℤ :=
  (List.range (b + 1 - a).toNat).map fun i : ℕ => a + (i : ℤ)

/-- The chunk table: a JS Map from chunk coordinates to chunks, in insertion
order (the source keys it by the string "x,z", an injective encoding of the
pair). -/
abbrev ChunkTable := List ((ℤ × ℤ) × Chunk)

/-- Map.get: first entry with the key. -/
def tableGet : ChunkTable → (ℤ × ℤ) → Option Chunk
  | [], _ => none
  | e :: t, k => if e.1 = k then some e.2 else tableGet t k

/-- Map.set: replace in place if present, else append. -/
def tableSet (t : ChunkTable) (k : ℤ × ℤ) (v : Chunk) : ChunkTable :=
  if (tableGet t k).isSome then
    t.map fun e => if e.1 = k then (k, v) else e
  else t ++ [(k, v)]

/-- World state: the seeded noise permutation table and the chunk table (the
scene and the unused blocks map of the constructor carry no core state). -/
structure World.State where
  perm : ℕ → ℕ
  chunks : ChunkTable

namespace World

/-- Fixed world constants from the World constructor. -/
def chunkSize : ℤ := 16

def chunkHeight : ℤ := 128

def renderDistance : ℤ := 8

def seaLevel : ℤ := 32

def maxHeightW : ℤ := 80

def minHeightW : ℤ := 5

/-- World.getBlock: out-of-range y or an unloaded chunk yields none. -/
def getBlock (w : State) (x y z : ℤ) : Option Block :=
  if y < 0 ∨ y ≥ chunkHeight then none
  else
    (tableGet w.chunks (chunkCoord x, chunkCoord z)).elim none
      fun chunk => chunk.getBlock (localCoord x) y (localCoord z)

/-- World.setBlock: returns the new world and the success flag; failure paths
return the world unchanged.  A null or AIR request clears the slot.  (The
mesh rebuild the source triggers is derived state here.) -/
def setBlock (w : State) (x y z : ℤ) (blockType : Option BlockType) : State × Bool :=
  if y < 0 ∨ y ≥ chunkHeight then (w, false)
  else
    (tableGet w.chunks (chunkCoord x, chunkCoord z)).elim (w, false) fun chunk =>
      let localX := localCoord x
      let localZ := localCoord z
      let chunk' :=
        blockType.elim (chunk.setBlock localX y localZ none) fun t =>
          if t ≠ BlockType.AIR then chunk.setBlock localX y localZ (some ⟨t, x, y, z⟩)
          else chunk.setBlock localX y localZ none
      ({ w with chunks := tableSet w.chunks (chunkCoord x, chunkCoord z) chunk' }, true)

/-- World.isBlockSolid: a block exists there and its type is solid. -/
def isBlockSolid (w : State) (x y z : ℤ) : Bool :=
  (getBlock w x y z).elim false fun block => Block.isBlockSolid block.type

/-- World.getChunkCount. -/
def getChunkCount (w : State) : ℕ := w.chunks.length

/-- World.generateHeight: three noise octaves around sea level, a biome
adjustment, then clamp to [minHeight, maxHeight] and floor. -/
def generateHeight (perm : ℕ → ℕ) (x z : ℚ) (biome : Biome) : ℤ :=
  let noise1 := NoiseGenerator.noise2D perm (x * (1/100)) (z * (1/100)) * 30
  let noise2 := NoiseGenerator.noise2D perm (x * (5/100)) (z * (5/100)) * 15
  let noise3 := NoiseGenerator.noise2D perm (x * (1/10)) (z * (1/10)) * 5
  let height : ℚ := (seaLevel : ℚ) + noise1 + noise2 + noise3
  let height : ℚ :=
    if biome.id = Biomes.MOUNTAINS.id then height + 20
    else if biome.id = Biomes.DESERT.id then height - 5
    else if biome.id = Biomes.OCEAN.id then (seaLevel : ℚ) - 10
    else height
  ⌊max (minHeightW : ℚ) (min (maxHeightW : ℚ) height)⌋

/-- Block type chosen by World.generateTerrain for one vertical slot,
by biome-specific banding. -/
def terrainBlockType (height : ℤ) (biome : Biome) (y : ℤ) : BlockType :=
  if biome.id = Biomes.DESERT.id then
    if y = height ∧ height > seaLevel then BlockType.SAND
    else if y ≥ height - 5 ∧ height > seaLevel then BlockType.SAND
    else BlockType.STONE
  else if biome.id = Biomes.MOUNTAINS.id then
    if y = height ∧ height > seaLevel + 20 then BlockType.STONE
    else if y = height ∧ height > seaLevel then BlockType.GRASS
    else if y ≥ height - 2 ∧ height > seaLevel then BlockType.DIRT
    else BlockType.STONE
  else
    if y = height ∧ height > seaLevel then BlockType.GRASS
    else if y ≥ height - 3 ∧ height > seaLevel then BlockType.DIRT
    else if y ≥ height - 8 then BlockType.STONE
    else BlockType.STONE

/-- World.setBlockInChunk: height-checked direct write of a fresh Block into
a chunk under construction. -/
def setBlockInChunk (chunk : Chunk) (x y z : ℤ) (blockType : BlockType) : Chunk :=
  if y < 0 ∨ y ≥ chunkHeight then chunk
  else chunk.setBlock x y z (some ⟨blockType, x, y, z⟩)

/-- World.generateTerrain: fill one column of the chunk from slot 0 up to the
height inclusive. -/
def generateTerrain (_worldX _worldZ : ℚ) (height : ℤ) (biome : Biome) (chunk : Chunk)
    (x z : ℤ) : Chunk :=
  (List.range (height + 1).toNat).foldl
    (fun ch yn => setBlockInChunk ch x (yn : ℤ) z (terrainBlockType height biome (yn : ℤ)))
    chunk

/-- World.shouldGenerateTree: one uniform draw against a biome-dependent
chance; returns the decision and the advanced draw counter. -/
def shouldGenerateTree (rng : ℕ → ℚ) (n : ℕ) (biome : Biome) : Bool × ℕ :=
  let chance : ℚ :=
    if biome.id = Biomes.FOREST.id then 8/100
    else if biome.id = Biomes.PLAINS.id then 1/100
    else if biome.id = Biomes.MOUNTAINS.id then 5/1000
    else 0
  (decide (rng n < chance), n + 1)

/-- Leaf candidate offsets of World.generateTree, in loop order
dx (outer), dz, dy (inner). -/
def leafOffsets (leavesSize : ℤ) : List (ℤ × ℤ × ℤ) :=
  (intRange (-leavesSize) leavesSize).flatMap fun dx =>
    (intRange (-leavesSize) leavesSize).flatMap fun dz =>
      (intRange 0 2).map fun dy => (dx, dz, dy)

/-- World.generateTree: a trunk of 4 + rand[0,3) Wood blocks, then Leaves in
a bounded neighborhood, each candidate accepted with an 80% draw if its
Manhattan distance is within the biome-dependent bound; draws are consumed
only where the source's short-circuit evaluates them. -/
def generateTree (rng : ℕ → ℚ) (n : ℕ) (w : State) (x y z : ℤ) (biome : Option Biome) :
    State × ℕ :=
  let treeHeight : ℤ := 4 + ⌊rng n * 3⌋
  let n := n + 1
  let abortDraw : Bool × ℕ :=
    biome.elim (false, n) fun b =>
      if b.id = Biomes.MOUNTAINS.id then (decide (rng n < 3/10), n + 1) else (false, n)
  if abortDraw.1 then (w, abortDraw.2)
  else
    let n := abortDraw.2
    let w := ((List.range treeHeight.toNat).foldl
      (fun (s : State × ℕ) i =>
        ((setBlock s.1 x (y + (i : ℤ)) z (some BlockType.WOOD)).1, s.2))
      (w, n)).1
    let leavesY := y + treeHeight - 1
    let isForest : Bool := biome.elim false fun b => decide (b.id = Biomes.FOREST.id)
    let leavesSize : ℤ := if isForest then 3 else 2
    let maxDistance : ℤ := if isForest then 4 else 3
    let step : State × ℕ → ℤ × ℤ × ℤ → State × ℕ := fun s d =>
      if d.1 = 0 ∧ d.2.1 = 0 ∧ d.2.2 = 0 then s
      else
        let distance := |d.1| + |d.2.1| + |d.2.2|
        if distance ≤ maxDistance then
          if rng s.2 < 8/10 then
            ((setBlock s.1 (x + d.1) (leavesY + d.2.2) (z + d.2.1)
              (some BlockType.LEAVES)).1, s.2 + 1)
          else (s.1, s.2 + 1)
        else s
    (leafOffsets leavesSize).foldl step (w, n)

/-- World.generateChunk: build a fresh chunk column by column (biome, height,
terrain fill, then possibly a tree through World.setBlock), and only after
the loop register it in the chunk table.  The mesh build and scene insertion
of the source are derived state here. -/
def generateChunk (rng : ℕ → ℚ) (n : ℕ) (w : State) (chunkX chunkZ : ℤ) : State × ℕ :=
  let chunk0 : Chunk := { x := chunkX, z := chunkZ, size := 16, height := 128,
                          blocks := fun _ _ _ => none }
  let step : Chunk × State × ℕ → ℤ × ℤ → Chunk × State × ℕ := fun st xz =>
    let worldX := chunkX * chunkSize + xz.1
    let worldZ := chunkZ * chunkSize + xz.2
    let biome := getBiome st.2.1.perm (worldX : ℚ) (worldZ : ℚ)
    let height := generateHeight st.2.1.perm (worldX : ℚ) (worldZ : ℚ) biome
    let c := generateTerrain (worldX : ℚ) (worldZ : ℚ) height biome st.1 xz.1 xz.2
    if height > seaLevel then
      let td := shouldGenerateTree rng st.2.2 biome
      if td.1 then
        let r := generateTree rng td.2 st.2.1 worldX (height + 1) worldZ (some biome)
        (c, r.1, r.2)
      else (c, st.2.1, td.2)
    else (c, st.2.1, st.2.2)
  let cells : List (ℤ × ℤ) :=
    (intRange 0 (chunkSize - 1)).flatMap fun x =>
      (intRange 0 (chunkSize - 1)).map fun z => (x, z)
  let r := cells.foldl step (chunk0, w, n)
  ({ r.2.1 with chunks := tableSet r.2.1.chunks (chunkX, chunkZ) r.1 }, r.2.2)

/-- Chebyshev distance between chunk coordinates. -/
def chebDist (a b : ℤ × ℤ) : ℤ := max |a.1 - b.1| |a.2 - b.2|

/-- World.updateChunks: generate every missing chunk within renderDistance of
the observer's chunk (x outer, z inner), then unload every chunk farther than
renderDistance + 2. -/
def updateChunks (rng : ℕ → ℚ) (n : ℕ) (w : State) (px pz : ℚ) : State × ℕ :=
  let playerChunkX := ⌊px / (chunkSize : ℚ)⌋
  let playerChunkZ := ⌊pz / (chunkSize : ℚ)⌋
  let coords : List (ℤ × ℤ) :=
    (intRange (playerChunkX - renderDistance) (playerChunkX + renderDistance)).flatMap fun x =>
      (intRange (playerChunkZ - renderDistance) (playerChunkZ + renderDistance)).map fun z =>
        (x, z)
  let gen := coords.foldl
    (fun (s : State × ℕ) k =>
      if (tableGet s.1.chunks k).isSome then s
      else generateChunk rng s.2 s.1 k.1 k.2)
    (w, n)
  let keep := gen.1.chunks.filter fun e =>
    chebDist e.1 (playerChunkX, playerChunkZ) ≤ renderDistance + 2
  ({ gen.1 with chunks := keep }, gen.2)

/-- World.update: advance streaming by one tick. -/
def update (rng : ℕ → ℚ) (n : ℕ) (w : State) (px pz : ℚ) : State × ℕ :=
  updateChunks rng n w px pz

end World

/-! ## Player physics (Player.applyPhysics / Player.handleCollisions) -/

/-- Player physics state: position, velocity and the ground-contact flag
(camera orientation and input state play no part in the physics step). -/
structure Player where
  px : ℚ
  py : ℚ
  pz : ℚ
  vx : ℚ
  vy : ℚ
  vz : ℚ
  onGround : Bool
deriving DecidableEq, Repr

namespace Player

/-- Player body constants from the constructor. -/
def height : ℚ := 9/5

def radius : ℚ := 3/10

def gravity : ℚ := -25

/-- Existence scan of a JS double loop over two inclusive integer ranges that
breaks on the first solid hit. -/
def scanSolid (w : World.State) (xs : List ℤ) (y : ℤ) (zs : List ℤ) : Bool :=
  xs.any fun x => zs.any fun z => World.isBlockSolid w x y z

/-- Player.handleCollisions: sequential-axis resolution, Y then X then Z,
mutating the proposed next position, the velocity and the ground flag.
currentPos is the pre-integration position the horizontal axes revert to. -/
def handleCollisions (w : World.State) (cur : ℚ × ℚ × ℚ) (next : ℚ × ℚ × ℚ)
    (v : ℚ × ℚ × ℚ) : (ℚ × ℚ × ℚ) × (ℚ × ℚ × ℚ) × Bool :=
  let (nx, ny, nz) := next
  let feetY : ℤ := ⌊ny⌋
  let headY : ℤ := ⌊ny + height⌋
  let minX : ℤ := ⌊nx - radius⌋
  let maxX : ℤ := ⌊nx + radius⌋
  let minZ : ℤ := ⌊nz - radius⌋
  let maxZ : ℤ := ⌊nz + radius⌋
  -- Vertical (Y axis)
  let vertical : ℚ × ℚ × Bool :=
    if v.2.1 ≤ 0 then
      if scanSolid w (intRange minX maxX) feetY (intRange minZ maxZ) then
        (((feetY : ℚ) + 1), 0, true)
      else (ny, v.2.1, false)
    else
      if scanSolid w (intRange minX maxX) headY (intRange minZ maxZ) then
        (((headY : ℚ) - height), 0, false)
      else (ny, v.2.1, false)
  let ny := vertical.1
  let vy := vertical.2.1
  let onGround := vertical.2.2
  let playerY : ℤ := ⌊ny⌋
  let playerYTop : ℤ := ⌊ny + height - 1/10⌋
  -- X axis
  let xres : ℚ × ℚ :=
    if v.1 ≠ 0 then
      let checkX : ℤ := if v.1 > 0 then ⌊nx + radius⌋ else ⌊nx - radius⌋
      if (intRange playerY playerYTop).any
          (fun y => (intRange minZ maxZ).any fun z => World.isBlockSolid w checkX y z) then
        (cur.1, 0)
      else (nx, v.1)
    else (nx, v.1)
  let nx := xres.1
  let vx := xres.2
  -- Z axis
  let zres : ℚ × ℚ :=
    if v.2.2 ≠ 0 then
      let checkZ : ℤ := if v.2.2 > 0 then ⌊nz + radius⌋ else ⌊nz - radius⌋
      if (intRange playerY playerYTop).any
          (fun y => (intRange minX maxX).any fun x => World.isBlockSolid w x y checkZ) then
        (cur.2.2, 0)
      else (nz, v.2.2)
    else (nz, v.2.2)
  ((nx, ny, zres.1), (vx, vy, zres.2), onGround)

/-- Player.applyPhysics: gravity integration (skipped on the ground), then
position integration, then collision resolution. -/
def applyPhysics (p : Player) (deltaTime : ℚ) (w : World.State) : Player :=
  let vy1 : ℚ := if p.onGround then p.vy else p.vy + gravity * deltaTime
  let next : ℚ × ℚ × ℚ :=
    (p.px + p.vx * deltaTime, p.py + vy1 * deltaTime, p.pz + p.vz * deltaTime)
  let r := handleCollisions w (p.px, p.py, p.pz) next (p.vx, vy1, p.vz)
  { px := r.1.1, py := r.1.2.1, pz := r.1.2.2,
    vx := r.2.1.1, vy := r.2.1.2.1, vz := r.2.1.2.2,
    onGround := r.2.2 }

end Player

/-! ## Concrete instances used to exercise the model -/

/-- Per-slot quad contribution of the mesh scan: zero for an absent or air
slot, otherwise the number of faces addBlockFaces emits for the block. -/
def Chunk.slotFaceCount (c : Chunk) (x y z : ℕ) : ℕ :=
  (c.blocks (x : ℤ) (y : ℤ) (z : ℤ)).elim 0 fun block =>
    if block.type = BlockType.AIR then 0
    else (c.addBlockFaces (c.x * c.size + (x : ℤ)) (y : ℤ) (c.z * c.size + (z : ℤ)) block).length

/-- A 16 × 128 × 16 chunk at chunk coordinates (0,0) holding exactly one
block. -/
def singleBlockChunk (x0 y0 z0 : ℕ) (t : BlockType) : Chunk :=
  { x := 0, z := 0, size := 16, height := 128,
    blocks := fun a b c =>
      if a = (x0 : ℤ) ∧ b = (y0 : ℤ) ∧ c = (z0 : ℤ) then some ⟨t, x0, y0, z0⟩ else none }

/-- A 16 × 128 × 16 chunk at chunk coordinates (0,0) holding exactly two
blocks at distinct slots. -/
def twoBlockChunk (x0 y0 z0 x1 y1 z1 : ℕ) (t0 t1 : BlockType) : Chunk :=
  { x := 0, z := 0, size := 16, height := 128,
    blocks := fun a b c =>
      if a = (x0 : ℤ) ∧ b = (y0 : ℤ) ∧ c = (z0 : ℤ) then some ⟨t0, x0, y0, z0⟩
      else if a = (x1 : ℤ) ∧ b = (y1 : ℤ) ∧ c = (z1 : ℤ) then some ⟨t1, x1, y1, z1⟩
      else none }

/-- A chunk whose voxels form a flat solid Stone layer at y = 31. -/
def flatChunk : Chunk :=
  { x := 0, z := 0, size := 16, height := 128,
    blocks := fun _ y _ => if y = 31 then some ⟨BlockType.STONE, 0, 31, 0⟩ else none }

/-- A world holding the single flat chunk at chunk coordinates (0,0). -/
def flatWorld : World.State := { perm := id, chunks := [((0, 0), flatChunk)] }

/-- A world with no chunks loaded. -/
def emptyWorld : World.State := { perm := id, chunks := [] }

/-- The resting player of the collision claims: mid-chunk at integer height
32 (feet exactly on top of the y = 31 stone layer of flatWorld), zero
velocity, ground contact set. -/
def restingPlayer : Player :=
  { px := 8, py := 32, pz := 8, vx := 0, vy := 0, vz := 0, onGround := true }

/-! ## Theorems -/

/-! ### Noise generator basics -/

namespace NoiseGenerator

lemma fade_zero : fade 0 = 0 := by norm_num [fade]

lemma lerp_of_t_zero (a b : ℚ) : lerp a b 0 = a := by simp [lerp]

lemma grad_zero_zero (h : ℕ) : grad h 0 0 = 0 := by
  simp [grad]

end NoiseGenerator

/-- C10: at integer inputs the fractional offsets are 0, every corner
gradient dot product is 0, and interpolating zeros yields 0, so noise2D is
exactly 0 on the integer lattice, for every permutation table (hence every
seed). -/
theorem noise2D_integer_lattice (perm : ℕ → ℕ) (i j : ℤ) :
    NoiseGenerator.noise2D perm (i : ℚ) (j : ℚ) = 0 := by
  simp only [NoiseGenerator.noise2D, Int.floor_intCast, sub_self,
    NoiseGenerator.fade_zero, NoiseGenerator.lerp_of_t_zero,
    NoiseGenerator.grad_zero_zero]

/-- C5: World.getBiome agrees with the spec's ordered first-match rule
cascade on the remapped temperature and humidity samples, and its result is
never the Ocean biome. -/
theorem getBiome_rules_and_never_ocean (perm : ℕ → ℕ) (x z : ℚ) :
    World.getBiome perm x z =
      classifySpec (World.biomeTemperature perm x z) (World.biomeHumidity perm x z) ∧
    World.getBiome perm x z ≠ Biomes.OCEAN := by
  refine ⟨rfl, ?_⟩
  unfold World.getBiome
  dsimp only
  split_ifs <;> decide

/-! ### Coordinate decomposition -/

lemma tmod_sixteen_lt (x : ℤ) : Int.tmod x 16 < 16 :=
  Int.tmod_lt_of_pos x (by norm_num)

lemma neg_sixteen_lt_tmod (x : ℤ) : -16 < Int.tmod x 16 := by
  rcases le_or_lt 0 x with hx | hx
  · have := Int.tmod_nonneg 16 hx
    omega
  · have hx' : (0 : ℤ) ≤ -x := by omega
    have h1 : Int.tmod (-x) 16 = -Int.tmod x 16 := by
      rw [Int.tmod_def, Int.tmod_def, Int.neg_tdiv]; ring
    have h2 := Int.tmod_nonneg 16 hx'
    have h3 : Int.tmod (-x) 16 < 16 := Int.tmod_lt_of_pos (-x) (by norm_num)
    omega

/-- C7: the (chunk, local) decomposition used by World.getBlock/setBlock
satisfies 0 ≤ localCoord x < 16 and chunkCoord x * 16 + localCoord x = x for
every integer x, and in particular x = -1 resolves to chunk -1, local 15. -/
theorem coord_decomposition (x : ℤ) :
    0 ≤ World.localCoord x ∧ World.localCoord x < 16 ∧
    World.chunkCoord x * 16 + World.localCoord x = x ∧
    World.chunkCoord (-1) = -1 ∧ World.localCoord (-1) = 15 := by
  have hub := tmod_sixteen_lt x
  have hlb := neg_sixteen_lt_tmod x
  have hs : (0 : ℤ) ≤ Int.tmod x 16 + 16 := by omega
  have hloc : World.localCoord x = (Int.tmod x 16 + 16) % 16 := by
    unfold World.localCoord
    exact Int.tmod_eq_emod hs (by norm_num)
  have hr : Int.tmod x 16 = x - 16 * Int.tdiv x 16 := Int.tmod_def x 16
  have hmod : (Int.tmod x 16 + 16) % 16 = x % 16 := by
    have hx : Int.tmod x 16 + 16 = x + 16 * (1 - Int.tdiv x 16) := by rw [hr]; ring
    rw [hx, Int.add_mul_emod_self_left]
  have hchunk : World.chunkCoord x = x / 16 := by
    unfold World.chunkCoord
    exact Int.fdiv_eq_ediv x (by norm_num)
  rw [hloc, hmod, hchunk]
  refine ⟨by omega, by omega, by omega, by decide, by decide⟩

/-! ### Mesh infrastructure -/

lemma mem_intRange {a b x : ℤ} : x ∈ intRange a b ↔ a ≤ x ∧ x ≤ b := by
  unfold intRange
  rw [List.mem_map]
  constructor
  · rintro ⟨i, hi, rfl⟩
    rw [List.mem_range] at hi
    omega
  · rintro ⟨h1, h2⟩
    refine ⟨(x - a).toNat, ?_, by omega⟩
    rw [List.mem_range]
    omega

lemma sum_list_range (f : ℕ → ℕ) (n : ℕ) :
    ((List.range n).map f).sum = ∑ i ∈ Finset.range n, f i := by
  induction n with
  | zero => simp
  | succ m ih =>
    rw [List.range_succ, List.map_append, List.sum_append, Finset.sum_range_succ, ih]
    simp

lemma mem_faceDirs (d : FaceDir) : d ∈ faceDirs := by
  cases d <;> simp [faceDirs]

/-- Characterization of Chunk.shouldRenderFace: the face renders exactly when
the neighbor slot is outside the height range, outside the chunk's horizontal
bounds, empty, or holds an air block. -/
lemma shouldRenderFace_iff (c : Chunk) (x y z : ℤ) :
    c.shouldRenderFace x y z = true ↔
      (y < 0 ∨ c.height ≤ y) ∨
      (x - c.x * c.size < 0 ∨ c.size ≤ x - c.x * c.size ∨
        z - c.z * c.size < 0 ∨ c.size ≤ z - c.z * c.size) ∨
      c.blocks (x - c.x * c.size) y (z - c.z * c.size) = none ∨
      (∃ b, c.blocks (x - c.x * c.size) y (z - c.z * c.size) = some b ∧
        b.type = BlockType.AIR) := by
  unfold Chunk.shouldRenderFace
  dsimp only
  split_ifs with h1 h2
  · simp only [true_iff]
    left
    omega
  · simp only [true_iff]
    right; left
    omega
  · rcases hcb : c.blocks (x - c.x * c.size) y (z - c.z * c.size) with _ | b
    · simp
    · simp only [Option.elim_some]
      constructor
      · intro hb
        right; right; right
        exact ⟨b, rfl, by simpa using hb⟩
      · rintro ((h | h) | h | h | ⟨b', hb', ht⟩)
        · omega
        · omega
        · omega
        · exact absurd h (by simp)
        · simp only [Option.some.injEq] at hb'
          subst hb'
          simpa using ht

/-- Membership in the quads of one block: exactly one quad per face direction
whose neighbor check passes, colored by getBlockColor with the face tag. -/
lemma mem_addBlockFaces {c : Chunk} {wx wy wz : ℤ} {block : Block} {q : Quad} :
    q ∈ c.addBlockFaces wx wy wz block ↔
      ∃ d : FaceDir,
        c.shouldRenderFace (wx + d.checkOffset.1) (wy + d.checkOffset.2.1)
          (wz + d.checkOffset.2.2) = true ∧
        q = { blockX := wx, blockY := wy, blockZ := wz, dir := d,
              color := Block.getBlockColor block.type d.tag } := by
  unfold Chunk.addBlockFaces
  rw [List.mem_filterMap]
  constructor
  · rintro ⟨d, _, hd⟩
    by_cases hr : c.shouldRenderFace (wx + d.checkOffset.1) (wy + d.checkOffset.2.1)
        (wz + d.checkOffset.2.2) = true
    · rw [if_pos hr] at hd
      exact ⟨d, hr, by simpa using hd.symm⟩
    · rw [if_neg hr] at hd
      simp at hd
  · rintro ⟨d, hr, rfl⟩
    exact ⟨d, mem_faceDirs d, by rw [if_pos hr]⟩

/-- Membership in the chunk mesh: a quad appears exactly when some in-bounds
slot holds a non-air block and the quad is one of that block's emitted faces. -/
lemma mem_buildMeshQuads {c : Chunk} {q : Quad} :
    q ∈ c.buildMeshQuads ↔
      ∃ x y z : ℕ, x < c.size.toNat ∧ y < c.height.toNat ∧ z < c.size.toNat ∧
        ∃ block, c.blocks (x : ℤ) (y : ℤ) (z : ℤ) = some block ∧
          block.type ≠ BlockType.AIR ∧
          q ∈ c.addBlockFaces (c.x * c.size + (x : ℤ)) (y : ℤ) (c.z * c.size + (z : ℤ)) block := by
  unfold Chunk.buildMeshQuads
  simp only [List.mem_flatMap, List.mem_range]
  constructor
  · rintro ⟨x, hx, y, hy, z, hz, hq⟩
    rcases hcb : c.blocks (x : ℤ) (y : ℤ) (z : ℤ) with _ | block
    · rw [hcb, Option.elim_none] at hq
      simp at hq
    · rw [hcb, Option.elim_some] at hq
      split_ifs at hq with hair
      · simp at hq
      · exact ⟨x, y, z, hx, hy, hz, block, hcb, hair, hq⟩
  · rintro ⟨x, y, z, hx, hy, hz, block, hcb, hair, hq⟩
    refine ⟨x, hx, y, hy, z, hz, ?_⟩
    rw [hcb, Option.elim_some, if_neg hair]
    exact hq

/-- The mesh quad count as a sum of per-slot contributions over the full
iteration box. -/
lemma length_buildMeshQuads (c : Chunk) :
    c.buildMeshQuads.length =
      ∑ p ∈ Finset.range c.size.toNat ×ˢ Finset.range c.height.toNat ×ˢ
          Finset.range c.size.toNat,
        c.slotFaceCount p.1 p.2.1 p.2.2 := by
  rw [Finset.sum_product]
  unfold Chunk.buildMeshQuads
  rw [List.length_flatMap, sum_list_range]
  refine Finset.sum_congr rfl fun x _ => ?_
  rw [Finset.sum_product]
  simp only [Function.comp_apply]
  rw [List.length_flatMap, sum_list_range]
  refine Finset.sum_congr rfl fun y _ => ?_
  simp only [Function.comp_apply]
  rw [List.length_flatMap, sum_list_range]
  refine Finset.sum_congr rfl fun z _ => ?_
  simp only [Function.comp_apply]
  unfold Chunk.slotFaceCount
  rcases hcb : c.blocks (x : ℤ) (y : ℤ) (z : ℤ) with _ | block
  · rw [Option.elim_none, Option.elim_none, List.length_nil]
  · rw [Option.elim_some, Option.elim_some]
    split_ifs with hair
    · rw [List.length_nil]
    · rfl

/-- C3 (amended): in buildMesh, a quad for a given face of a stored non-air
block is emitted if and only if the neighbor slot in that direction is
outside the y-range, outside the chunk's horizontal bounds, holds no voxel,
or holds a voxel whose material is AIR specifically — transparency is not
consulted, so a transparent non-air neighbor (e.g. Water) suppresses the
face. -/
theorem face_emission_iff (c : Chunk) (lx ly lz : ℕ) (block : Block) (d : FaceDir)
    (hx : lx < c.size.toNat) (hy : ly < c.height.toNat) (hz : lz < c.size.toNat)
    (hb : c.blocks (lx : ℤ) (ly : ℤ) (lz : ℤ) = some block)
    (hair : block.type ≠ BlockType.AIR) :
    ((⟨c.x * c.size + (lx : ℤ), (ly : ℤ), c.z * c.size + (lz : ℤ), d,
        Block.getBlockColor block.type d.tag⟩ : Quad) ∈ c.buildMeshQuads) ↔
      (((ly : ℤ) + d.checkOffset.2.1 < 0 ∨ c.height ≤ (ly : ℤ) + d.checkOffset.2.1) ∨
       ((lx : ℤ) + d.checkOffset.1 < 0 ∨ c.size ≤ (lx : ℤ) + d.checkOffset.1 ∨
        (lz : ℤ) + d.checkOffset.2.2 < 0 ∨ c.size ≤ (lz : ℤ) + d.checkOffset.2.2) ∨
       c.blocks ((lx : ℤ) + d.checkOffset.1) ((ly : ℤ) + d.checkOffset.2.1)
         ((lz : ℤ) + d.checkOffset.2.2) = none ∨
       (∃ nb, c.blocks ((lx : ℤ) + d.checkOffset.1) ((ly : ℤ) + d.checkOffset.2.1)
         ((lz : ℤ) + d.checkOffset.2.2) = some nb ∧ nb.type = BlockType.AIR)) := by
  have e1 : c.x * c.size + (lx : ℤ) + d.checkOffset.1 - c.x * c.size =
      (lx : ℤ) + d.checkOffset.1 := by ring
  have e3 : c.z * c.size + (lz : ℤ) + d.checkOffset.2.2 - c.z * c.size =
      (lz : ℤ) + d.checkOffset.2.2 := by ring
  rw [mem_buildMeshQuads]
  constructor
  · rintro ⟨x', y', z', hx', hy', hz', block', hb', hair', hq⟩
    rw [mem_addBlockFaces] at hq
    rcases hq with ⟨d', hr, heq⟩
    simp only [Quad.mk.injEq] at heq
    obtain ⟨hex, hey, hez, hed, -⟩ := heq
    have hxx : x' = lx := by omega
    have hyy : y' = ly := by omega
    have hzz : z' = lz := by omega
    subst hxx hyy hzz hed
    rw [shouldRenderFace_iff, e1, e3] at hr
    exact hr
  · intro hcond
    refine ⟨lx, ly, lz, hx, hy, hz, block, hb, hair, ?_⟩
    rw [mem_addBlockFaces]
    refine ⟨d, ?_, rfl⟩
    rw [shouldRenderFace_iff, e1, e3]
    exact hcond

/-- Witness for the amended face-emission rule: a lone interior Stone block
at (8,64,8) of a 16 × 128 × 16 chunk emits its +X face (the neighbor slot is
empty). -/
theorem face_emission_iff_witness :
    (singleBlockChunk 8 64 8 BlockType.STONE).blocks 8 64 8 =
      some ⟨BlockType.STONE, 8, 64, 8⟩ ∧
    (⟨8, 64, 8, FaceDir.right, 0x757575⟩ : Quad) ∈
      (singleBlockChunk 8 64 8 BlockType.STONE).buildMeshQuads :=
  ⟨by decide,
    (face_emission_iff (singleBlockChunk 8 64 8 BlockType.STONE) 8 64 8
      ⟨BlockType.STONE, 8, 64, 8⟩ FaceDir.right (by decide) (by decide) (by decide)
      (by decide) (by decide)).mpr (Or.inr (Or.inr (Or.inl (by decide))))⟩

/-- Counterexample to C3 as stated: a Stone block whose +X neighbor is Water
(a transparent, non-air material) does NOT get its +X face emitted —
shouldRenderFace only tests for AIR, never for transparency. -/
theorem face_culling_water_counterexample :
    Block.isBlockTransparent BlockType.WATER = true ∧
    BlockType.WATER ≠ BlockType.AIR ∧
    (twoBlockChunk 8 64 8 9 64 8 BlockType.STONE BlockType.WATER).blocks 9 64 8 =
      some ⟨BlockType.WATER, 9, 64, 8⟩ ∧
    (⟨8, 64, 8, FaceDir.right, 0x757575⟩ : Quad) ∉
      (twoBlockChunk 8 64 8 9 64 8 BlockType.STONE BlockType.WATER).buildMeshQuads := by
  refine ⟨by decide, by decide, by decide, ?_⟩
  intro hmem
  rw [mem_buildMeshQuads] at hmem
  obtain ⟨x', y', z', hx', hy', hz', block', hb', hair', hq⟩ := hmem
  rw [mem_addBlockFaces] at hq
  obtain ⟨d', hr, heq⟩ := hq
  simp only [Quad.mk.injEq, twoBlockChunk] at heq
  obtain ⟨hex, hey, hez, hed, -⟩ := heq
  have hxx : x' = 8 := by omega
  have hyy : y' = 64 := by omega
  have hzz : z' = 8 := by omega
  subst hxx hyy hzz
  subst hed
  exact absurd hr (by decide)

/-! ### Quad counting (C4) -/

lemma length_filterMap_ite {α β : Type} (l : List α) (p : α → Bool) (g : α → β) :
    (l.filterMap fun a => if p a then some (g a) else none).length =
      (l.filter p).length := by
  induction l with
  | nil => rfl
  | cons a l ih =>
    rw [List.filterMap_cons, List.filter_cons]
    by_cases hp : p a
    · rw [if_pos hp, if_pos hp, List.length_cons, List.length_cons, ih]
    · rw [if_neg hp, if_neg (by simpa using hp), ih]

lemma length_addBlockFaces (c : Chunk) (wx wy wz : ℤ) (block : Block) :
    (c.addBlockFaces wx wy wz block).length =
      (faceDirs.filter fun d =>
        c.shouldRenderFace (wx + d.checkOffset.1) (wy + d.checkOffset.2.1)
          (wz + d.checkOffset.2.2)).length := by
  unfold Chunk.addBlockFaces
  exact length_filterMap_ite faceDirs _ _

lemma solid_ne_air : ∀ t : BlockType, Block.isBlockSolid t = true → t ≠ BlockType.AIR := by
  intro t
  cases t <;> decide

lemma singleBlock_blocks_ne (x0 y0 z0 : ℕ) (t : BlockType) (a b c' : ℤ)
    (h : ¬(a = (x0 : ℤ) ∧ b = (y0 : ℤ) ∧ c' = (z0 : ℤ))) :
    (singleBlockChunk x0 y0 z0 t).blocks a b c' = none := by
  unfold singleBlockChunk
  exact if_neg h

lemma shouldRenderFace_single_ne (x0 y0 z0 : ℕ) (t : BlockType) (wx wy wz : ℤ)
    (h : ¬(wx = (x0 : ℤ) ∧ wy = (y0 : ℤ) ∧ wz = (z0 : ℤ))) :
    (singleBlockChunk x0 y0 z0 t).shouldRenderFace wx wy wz = true := by
  rw [shouldRenderFace_iff]
  refine Or.inr (Or.inr (Or.inl ?_))
  apply singleBlock_blocks_ne
  rintro ⟨h1, h2, h3⟩
  have e1 : (singleBlockChunk x0 y0 z0 t).x * (singleBlockChunk x0 y0 z0 t).size = 0 := rfl
  have e2 : (singleBlockChunk x0 y0 z0 t).z * (singleBlockChunk x0 y0 z0 t).size = 0 := rfl
  exact h ⟨by omega, h2, by omega⟩

lemma slotFaceCount_single_ne (x0 y0 z0 : ℕ) (t : BlockType) (a b c' : ℕ)
    (h : ¬(a = x0 ∧ b = y0 ∧ c' = z0)) :
    (singleBlockChunk x0 y0 z0 t).slotFaceCount a b c' = 0 := by
  unfold Chunk.slotFaceCount
  rw [singleBlock_blocks_ne x0 y0 z0 t _ _ _
    (by rintro ⟨h1, h2, h3⟩; exact h ⟨by omega, by omega, by omega⟩)]
  rfl

set_option maxRecDepth 10000 in
lemma singleBlock_count (x0 y0 z0 : ℕ) (t : BlockType)
    (hx1 : 1 ≤ x0) (hx2 : x0 ≤ 14) (hy1 : 1 ≤ y0) (hy2 : y0 ≤ 126)
    (hz1 : 1 ≤ z0) (hz2 : z0 ≤ 14) (ht : t ≠ BlockType.AIR) :
    (singleBlockChunk x0 y0 z0 t).buildMeshQuads.length = 6 := by
  rw [length_buildMeshQuads]
  have hs : (singleBlockChunk x0 y0 z0 t).size.toNat = 16 := rfl
  have hh : (singleBlockChunk x0 y0 z0 t).height.toNat = 128 := rfl
  rw [hs, hh]
  have hsub : ({(x0, y0, z0)} : Finset (ℕ × ℕ × ℕ)) ⊆
      Finset.range 16 ×ˢ Finset.range 128 ×ˢ Finset.range 16 := by
    simp only [Finset.singleton_subset_iff, Finset.mem_product, Finset.mem_range]
    exact ⟨by omega, by omega, by omega⟩
  rw [← Finset.sum_subset hsub]
  · rw [Finset.sum_singleton]
    unfold Chunk.slotFaceCount
    have hb : (singleBlockChunk x0 y0 z0 t).blocks (x0 : ℤ) (y0 : ℤ) (z0 : ℤ) =
        some ⟨t, x0, y0, z0⟩ := by
      unfold singleBlockChunk
      exact if_pos ⟨rfl, rfl, rfl⟩
    rw [hb, Option.elim_some, if_neg ht, length_addBlockFaces]
    have hall : ∀ d : FaceDir,
        (singleBlockChunk x0 y0 z0 t).shouldRenderFace
          ((singleBlockChunk x0 y0 z0 t).x * (singleBlockChunk x0 y0 z0 t).size + (x0 : ℤ) +
            d.checkOffset.1)
          ((y0 : ℤ) + d.checkOffset.2.1)
          ((singleBlockChunk x0 y0 z0 t).z * (singleBlockChunk x0 y0 z0 t).size + (z0 : ℤ) +
            d.checkOffset.2.2) = true := by
      intro d
      apply shouldRenderFace_single_ne
      have e1 : (singleBlockChunk x0 y0 z0 t).x * (singleBlockChunk x0 y0 z0 t).size = 0 := rfl
      have e2 : (singleBlockChunk x0 y0 z0 t).z * (singleBlockChunk x0 y0 z0 t).size = 0 := rfl
      cases d <;>
        (rintro ⟨h1, h2, h3⟩ <;>
          simp only [FaceDir.checkOffset] at h1 h2 h3) <;> omega
    simp only [faceDirs, List.filter, hall, List.length_cons, List.length_nil]
  · intro p hp hps
    obtain ⟨a, b, c'⟩ := p
    apply slotFaceCount_single_ne
    intro hc
    apply hps
    simp only [Finset.mem_singleton]
    exact Prod.ext hc.1 (Prod.ext hc.2.1 hc.2.2)

lemma twoBlock_blocks_first (x0 y0 z0 x1 y1 z1 : ℕ) (t0 t1 : BlockType) :
    (twoBlockChunk x0 y0 z0 x1 y1 z1 t0 t1).blocks (x0 : ℤ) (y0 : ℤ) (z0 : ℤ) =
      some ⟨t0, x0, y0, z0⟩ := by
  unfold twoBlockChunk
  exact if_pos ⟨rfl, rfl, rfl⟩

lemma twoBlock_blocks_second (x0 y0 z0 x1 y1 z1 : ℕ) (t0 t1 : BlockType)
    (h : ¬(x1 = x0 ∧ y1 = y0 ∧ z1 = z0)) :
    (twoBlockChunk x0 y0 z0 x1 y1 z1 t0 t1).blocks (x1 : ℤ) (y1 : ℤ) (z1 : ℤ) =
      some ⟨t1, x1, y1, z1⟩ := by
  unfold twoBlockChunk
  dsimp only
  rw [if_neg (by rintro ⟨h1, h2, h3⟩; exact h ⟨by omega, by omega, by omega⟩)]
  exact if_pos ⟨rfl, rfl, rfl⟩

lemma twoBlock_blocks_ne (x0 y0 z0 x1 y1 z1 : ℕ) (t0 t1 : BlockType) (a b c' : ℤ)
    (h0 : ¬(a = (x0 : ℤ) ∧ b = (y0 : ℤ) ∧ c' = (z0 : ℤ)))
    (h1 : ¬(a = (x1 : ℤ) ∧ b = (y1 : ℤ) ∧ c' = (z1 : ℤ))) :
    (twoBlockChunk x0 y0 z0 x1 y1 z1 t0 t1).blocks a b c' = none := by
  unfold twoBlockChunk
  dsimp only
  rw [if_neg h0, if_neg h1]

lemma shouldRenderFace_two_ne (x0 y0 z0 x1 y1 z1 : ℕ) (t0 t1 : BlockType) (wx wy wz : ℤ)
    (h0 : ¬(wx = (x0 : ℤ) ∧ wy = (y0 : ℤ) ∧ wz = (z0 : ℤ)))
    (h1 : ¬(wx = (x1 : ℤ) ∧ wy = (y1 : ℤ) ∧ wz = (z1 : ℤ))) :
    (twoBlockChunk x0 y0 z0 x1 y1 z1 t0 t1).shouldRenderFace wx wy wz = true := by
  rw [shouldRenderFace_iff]
  refine Or.inr (Or.inr (Or.inl ?_))
  have e1 : (twoBlockChunk x0 y0 z0 x1 y1 z1 t0 t1).x *
      (twoBlockChunk x0 y0 z0 x1 y1 z1 t0 t1).size = 0 := rfl
  have e2 : (twoBlockChunk x0 y0 z0 x1 y1 z1 t0 t1).z *
      (twoBlockChunk x0 y0 z0 x1 y1 z1 t0 t1).size = 0 := rfl
  apply twoBlock_blocks_ne
  · rintro ⟨g1, g2, g3⟩
    exact h0 ⟨by omega, g2, by omega⟩
  · rintro ⟨g1, g2, g3⟩
    exact h1 ⟨by omega, g2, by omega⟩

lemma shouldRenderFace_two_at_second (x0 y0 z0 x1 y1 z1 : ℕ) (t0 t1 : BlockType)
    (wx wy wz : ℤ)
    (hw : wx = (x1 : ℤ) ∧ wy = (y1 : ℤ) ∧ wz = (z1 : ℤ))
    (hne : ¬(x1 = x0 ∧ y1 = y0 ∧ z1 = z0))
    (hx : x1 ≤ 15) (hy : y1 ≤ 127) (hz : z1 ≤ 15)
    (ht : t1 ≠ BlockType.AIR) :
    (twoBlockChunk x0 y0 z0 x1 y1 z1 t0 t1).shouldRenderFace wx wy wz = false := by
  obtain ⟨rfl, rfl, rfl⟩ := hw
  rw [Bool.eq_false_iff]
  intro h
  rw [shouldRenderFace_iff] at h
  have e1 : (twoBlockChunk x0 y0 z0 x1 y1 z1 t0 t1).x *
      (twoBlockChunk x0 y0 z0 x1 y1 z1 t0 t1).size = 0 := rfl
  have e2 : (twoBlockChunk x0 y0 z0 x1 y1 z1 t0 t1).z *
      (twoBlockChunk x0 y0 z0 x1 y1 z1 t0 t1).size = 0 := rfl
  have hh : (twoBlockChunk x0 y0 z0 x1 y1 z1 t0 t1).height = 128 := rfl
  have hsz : (twoBlockChunk x0 y0 z0 x1 y1 z1 t0 t1).size = 16 := rfl
  have hb : (twoBlockChunk x0 y0 z0 x1 y1 z1 t0 t1).blocks
      ((x1 : ℤ) - (twoBlockChunk x0 y0 z0 x1 y1 z1 t0 t1).x *
        (twoBlockChunk x0 y0 z0 x1 y1 z1 t0 t1).size) (y1 : ℤ)
      ((z1 : ℤ) - (twoBlockChunk x0 y0 z0 x1 y1 z1 t0 t1).z *
        (twoBlockChunk x0 y0 z0 x1 y1 z1 t0 t1).size) =
      some ⟨t1, x1, y1, z1⟩ := by
    rw [show ((x1 : ℤ) - (twoBlockChunk x0 y0 z0 x1 y1 z1 t0 t1).x *
        (twoBlockChunk x0 y0 z0 x1 y1 z1 t0 t1).size) = (x1 : ℤ) by omega,
      show ((z1 : ℤ) - (twoBlockChunk x0 y0 z0 x1 y1 z1 t0 t1).z *
        (twoBlockChunk x0 y0 z0 x1 y1 z1 t0 t1).size) = (z1 : ℤ) by omega]
    exact twoBlock_blocks_second x0 y0 z0 x1 y1 z1 t0 t1 hne
  rcases h with (h | h) | (h | h | h | h) | h | ⟨nb, hnb, hnt⟩
  · omega
  · omega
  · omega
  · omega
  · omega
  · omega
  · rw [hb] at h
    exact absurd h (by simp)
  · rw [hb] at hnb
    simp only [Option.some.injEq] at hnb
    subst hnb
    exact ht hnt

lemma slotFaceCount_two_ne (x0 y0 z0 x1 y1 z1 : ℕ) (t0 t1 : BlockType) (a b c' : ℕ)
    (h0 : ¬(a = x0 ∧ b = y0 ∧ c' = z0)) (h1 : ¬(a = x1 ∧ b = y1 ∧ c' = z1)) :
    (twoBlockChunk x0 y0 z0 x1 y1 z1 t0 t1).slotFaceCount a b c' = 0 := by
  unfold Chunk.slotFaceCount
  rw [twoBlock_blocks_ne x0 y0 z0 x1 y1 z1 t0 t1 _ _ _
    (by rintro ⟨g1, g2, g3⟩; exact h0 ⟨by omega, by omega, by omega⟩)
    (by rintro ⟨g1, g2, g3⟩; exact h1 ⟨by omega, by omega, by omega⟩)]
  rfl

set_option maxRecDepth 10000 in
lemma twoBlock_slotFaceCount_five (x0 y0 z0 x1 y1 z1 : ℕ) (t0 t1 : BlockType)
    (hne : ¬(x1 = x0 ∧ y1 = y0 ∧ z1 = z0))
    (hx1 : x1 ≤ 15) (hy1 : y1 ≤ 127) (hz1 : z1 ≤ 15)
    (ht0 : t0 ≠ BlockType.AIR) (ht1 : t1 ≠ BlockType.AIR) (dbad : FaceDir)
    (hbad : ((x0 : ℤ) + dbad.checkOffset.1 = (x1 : ℤ) ∧
      (y0 : ℤ) + dbad.checkOffset.2.1 = (y1 : ℤ) ∧
      (z0 : ℤ) + dbad.checkOffset.2.2 = (z1 : ℤ)))
    (hgood : ∀ d : FaceDir, d ≠ dbad →
      ¬((x0 : ℤ) + d.checkOffset.1 = (x0 : ℤ) ∧ (y0 : ℤ) + d.checkOffset.2.1 = (y0 : ℤ) ∧
        (z0 : ℤ) + d.checkOffset.2.2 = (z0 : ℤ)) ∧
      ¬((x0 : ℤ) + d.checkOffset.1 = (x1 : ℤ) ∧ (y0 : ℤ) + d.checkOffset.2.1 = (y1 : ℤ) ∧
        (z0 : ℤ) + d.checkOffset.2.2 = (z1 : ℤ))) :
    (twoBlockChunk x0 y0 z0 x1 y1 z1 t0 t1).slotFaceCount x0 y0 z0 = 5 := by
  unfold Chunk.slotFaceCount
  rw [twoBlock_blocks_first, Option.elim_some, if_neg ht0, length_addBlockFaces]
  have e1 : (twoBlockChunk x0 y0 z0 x1 y1 z1 t0 t1).x *
      (twoBlockChunk x0 y0 z0 x1 y1 z1 t0 t1).size = 0 := rfl
  have e2 : (twoBlockChunk x0 y0 z0 x1 y1 z1 t0 t1).z *
      (twoBlockChunk x0 y0 z0 x1 y1 z1 t0 t1).size = 0 := rfl
  have hfun : ∀ d : FaceDir,
      (twoBlockChunk x0 y0 z0 x1 y1 z1 t0 t1).shouldRenderFace
        ((twoBlockChunk x0 y0 z0 x1 y1 z1 t0 t1).x *
          (twoBlockChunk x0 y0 z0 x1 y1 z1 t0 t1).size + (x0 : ℤ) + d.checkOffset.1)
        ((y0 : ℤ) + d.checkOffset.2.1)
        ((twoBlockChunk x0 y0 z0 x1 y1 z1 t0 t1).z *
          (twoBlockChunk x0 y0 z0 x1 y1 z1 t0 t1).size + (z0 : ℤ) + d.checkOffset.2.2) =
        if d = dbad then false else true := by
    intro d
    by_cases hd : d = dbad
    · subst hd
      rw [if_pos rfl]
      apply shouldRenderFace_two_at_second x0 y0 z0 x1 y1 z1 t0 t1 _ _ _
        ⟨by omega, by omega, by omega⟩ hne hx1 hy1 hz1 ht1
    · rw [if_neg hd]
      obtain ⟨hg0, hg1⟩ := hgood d hd
      apply shouldRenderFace_two_ne x0 y0 z0 x1 y1 z1 t0 t1
      · rintro ⟨g1, g2, g3⟩
        exact hg0 ⟨by omega, by omega, by omega⟩
      · rintro ⟨g1, g2, g3⟩
        exact hg1 ⟨by omega, by omega, by omega⟩
  cases dbad <;>
    simp only [faceDirs, hfun, List.filter, List.length_cons, List.length_nil] <;> rfl

lemma shouldRenderFace_two_at_first (x0 y0 z0 x1 y1 z1 : ℕ) (t0 t1 : BlockType)
    (wx wy wz : ℤ)
    (hw : wx = (x0 : ℤ) ∧ wy = (y0 : ℤ) ∧ wz = (z0 : ℤ))
    (hx : x0 ≤ 15) (hy : y0 ≤ 127) (hz : z0 ≤ 15)
    (ht : t0 ≠ BlockType.AIR) :
    (twoBlockChunk x0 y0 z0 x1 y1 z1 t0 t1).shouldRenderFace wx wy wz = false := by
  obtain ⟨rfl, rfl, rfl⟩ := hw
  rw [Bool.eq_false_iff]
  intro h
  rw [shouldRenderFace_iff] at h
  have e1 : (twoBlockChunk x0 y0 z0 x1 y1 z1 t0 t1).x *
      (twoBlockChunk x0 y0 z0 x1 y1 z1 t0 t1).size = 0 := rfl
  have e2 : (twoBlockChunk x0 y0 z0 x1 y1 z1 t0 t1).z *
      (twoBlockChunk x0 y0 z0 x1 y1 z1 t0 t1).size = 0 := rfl
  have hh : (twoBlockChunk x0 y0 z0 x1 y1 z1 t0 t1).height = 128 := rfl
  have hsz : (twoBlockChunk x0 y0 z0 x1 y1 z1 t0 t1).size = 16 := rfl
  have hb : (twoBlockChunk x0 y0 z0 x1 y1 z1 t0 t1).blocks
      ((x0 : ℤ) - (twoBlockChunk x0 y0 z0 x1 y1 z1 t0 t1).x *
        (twoBlockChunk x0 y0 z0 x1 y1 z1 t0 t1).size) (y0 : ℤ)
      ((z0 : ℤ) - (twoBlockChunk x0 y0 z0 x1 y1 z1 t0 t1).z *
        (twoBlockChunk x0 y0 z0 x1 y1 z1 t0 t1).size) =
      some ⟨t0, x0, y0, z0⟩ := by
    rw [show ((x0 : ℤ) - (twoBlockChunk x0 y0 z0 x1 y1 z1 t0 t1).x *
        (twoBlockChunk x0 y0 z0 x1 y1 z1 t0 t1).size) = (x0 : ℤ) by omega,
      show ((z0 : ℤ) - (twoBlockChunk x0 y0 z0 x1 y1 z1 t0 t1).z *
        (twoBlockChunk x0 y0 z0 x1 y1 z1 t0 t1).size) = (z0 : ℤ) by omega]
    exact twoBlock_blocks_first x0 y0 z0 x1 y1 z1 t0 t1
  rcases h with (h | h) | (h | h | h | h) | h | ⟨nb, hnb, hnt⟩
  · omega
  · omega
  · omega
  · omega
  · omega
  · omega
  · rw [hb] at h
    exact absurd h (by simp)
  · rw [hb] at hnb
    simp only [Option.some.injEq] at hnb
    subst hnb
    exact ht hnt

set_option maxRecDepth 10000 in
lemma twoBlock_slotFaceCount_five' (x0 y0 z0 x1 y1 z1 : ℕ) (t0 t1 : BlockType)
    (hne : ¬(x1 = x0 ∧ y1 = y0 ∧ z1 = z0))
    (hx0 : x0 ≤ 15) (hy0 : y0 ≤ 127) (hz0 : z0 ≤ 15)
    (ht0 : t0 ≠ BlockType.AIR) (ht1 : t1 ≠ BlockType.AIR) (dbad : FaceDir)
    (hbad : ((x1 : ℤ) + dbad.checkOffset.1 = (x0 : ℤ) ∧
      (y1 : ℤ) + dbad.checkOffset.2.1 = (y0 : ℤ) ∧
      (z1 : ℤ) + dbad.checkOffset.2.2 = (z0 : ℤ)))
    (hgood : ∀ d : FaceDir, d ≠ dbad →
      ¬((x1 : ℤ) + d.checkOffset.1 = (x0 : ℤ) ∧ (y1 : ℤ) + d.checkOffset.2.1 = (y0 : ℤ) ∧
        (z1 : ℤ) + d.checkOffset.2.2 = (z0 : ℤ)) ∧
      ¬((x1 : ℤ) + d.checkOffset.1 = (x1 : ℤ) ∧ (y1 : ℤ) + d.checkOffset.2.1 = (y1 : ℤ) ∧
        (z1 : ℤ) + d.checkOffset.2.2 = (z1 : ℤ))) :
    (twoBlockChunk x0 y0 z0 x1 y1 z1 t0 t1).slotFaceCount x1 y1 z1 = 5 := by
  unfold Chunk.slotFaceCount
  rw [twoBlock_blocks_second x0 y0 z0 x1 y1 z1 t0 t1 hne, Option.elim_some, if_neg ht1,
    length_addBlockFaces]
  have e1 : (twoBlockChunk x0 y0 z0 x1 y1 z1 t0 t1).x *
      (twoBlockChunk x0 y0 z0 x1 y1 z1 t0 t1).size = 0 := rfl
  have e2 : (twoBlockChunk x0 y0 z0 x1 y1 z1 t0 t1).z *
      (twoBlockChunk x0 y0 z0 x1 y1 z1 t0 t1).size = 0 := rfl
  have hfun : ∀ d : FaceDir,
      (twoBlockChunk x0 y0 z0 x1 y1 z1 t0 t1).shouldRenderFace
        ((twoBlockChunk x0 y0 z0 x1 y1 z1 t0 t1).x *
          (twoBlockChunk x0 y0 z0 x1 y1 z1 t0 t1).size + (x1 : ℤ) + d.checkOffset.1)
        ((y1 : ℤ) + d.checkOffset.2.1)
        ((twoBlockChunk x0 y0 z0 x1 y1 z1 t0 t1).z *
          (twoBlockChunk x0 y0 z0 x1 y1 z1 t0 t1).size + (z1 : ℤ) + d.checkOffset.2.2) =
        if d = dbad then false else true := by
    intro d
    by_cases hd : d = dbad
    · subst hd
      rw [if_pos rfl]
      apply shouldRenderFace_two_at_first x0 y0 z0 x1 y1 z1 t0 t1 _ _ _
        ⟨by omega, by omega, by omega⟩ hx0 hy0 hz0 ht0
    · rw [if_neg hd]
      obtain ⟨hg0, hg1⟩ := hgood d hd
      apply shouldRenderFace_two_ne x0 y0 z0 x1 y1 z1 t0 t1
      · rintro ⟨g1, g2, g3⟩
        exact hg0 ⟨by omega, by omega, by omega⟩
      · rintro ⟨g1, g2, g3⟩
        exact hg1 ⟨by omega, by omega, by omega⟩
  cases dbad <;>
    simp only [faceDirs, hfun, List.filter, List.length_cons, List.length_nil] <;> rfl

set_option maxRecDepth 100000 in
lemma twoBlock_count (x0 y0 z0 x1 y1 z1 : ℕ) (t0 t1 : BlockType)
    (hx01 : 1 ≤ x0) (hx02 : x0 ≤ 14) (hy01 : 1 ≤ y0) (hy02 : y0 ≤ 126)
    (hz01 : 1 ≤ z0) (hz02 : z0 ≤ 14)
    (hx11 : 1 ≤ x1) (hx12 : x1 ≤ 14) (hy11 : 1 ≤ y1) (hy12 : y1 ≤ 126)
    (hz11 : 1 ≤ z1) (hz12 : z1 ≤ 14)
    (hadj : (x1 = x0 + 1 ∧ y1 = y0 ∧ z1 = z0) ∨ (x1 = x0 ∧ y1 = y0 + 1 ∧ z1 = z0) ∨
      (x1 = x0 ∧ y1 = y0 ∧ z1 = z0 + 1))
    (ht0 : t0 ≠ BlockType.AIR) (ht1 : t1 ≠ BlockType.AIR) :
    (twoBlockChunk x0 y0 z0 x1 y1 z1 t0 t1).buildMeshQuads.length = 10 := by
  have hne : ¬(x1 = x0 ∧ y1 = y0 ∧ z1 = z0) := by omega
  rw [length_buildMeshQuads]
  rw [show (twoBlockChunk x0 y0 z0 x1 y1 z1 t0 t1).size.toNat = 16 from rfl,
    show (twoBlockChunk x0 y0 z0 x1 y1 z1 t0 t1).height.toNat = 128 from rfl]
  have hsub : ({(x0, y0, z0), (x1, y1, z1)} : Finset (ℕ × ℕ × ℕ)) ⊆
      Finset.range 16 ×ˢ Finset.range 128 ×ˢ Finset.range 16 := by
    intro p hp
    obtain ⟨a, b, c'⟩ := p
    simp only [Finset.mem_insert, Finset.mem_singleton, Prod.mk.injEq] at hp
    simp only [Finset.mem_product, Finset.mem_range]
    rcases hp with ⟨rfl, rfl, rfl⟩ | ⟨rfl, rfl, rfl⟩
    · exact ⟨by omega, by omega, by omega⟩
    · exact ⟨by omega, by omega, by omega⟩
  rw [← Finset.sum_subset hsub]
  · have hp01 : ((x0, y0, z0) : ℕ × ℕ × ℕ) ≠ (x1, y1, z1) := by
      intro h
      simp only [Prod.mk.injEq] at h
      omega
    rw [Finset.sum_pair hp01]
    have hf0 : (twoBlockChunk x0 y0 z0 x1 y1 z1 t0 t1).slotFaceCount x0 y0 z0 = 5 := by
      rcases hadj with ⟨rfl, rfl, rfl⟩ | ⟨rfl, rfl, rfl⟩ | ⟨rfl, rfl, rfl⟩
      · refine twoBlock_slotFaceCount_five _ _ _ _ _ _ _ _ hne (by omega) (by omega) (by omega)
          ht0 ht1 FaceDir.right ⟨by dsimp only [FaceDir.checkOffset]; omega,
            by dsimp only [FaceDir.checkOffset]; omega,
            by dsimp only [FaceDir.checkOffset]; omega⟩ ?_
        intro d hd
        cases d <;>
          first
            | exact absurd rfl hd
            | (refine ⟨?_, ?_⟩ <;> rintro ⟨g1, g2, g3⟩ <;>
                dsimp only [FaceDir.checkOffset] at g1 g2 g3 <;> omega)
      · refine twoBlock_slotFaceCount_five _ _ _ _ _ _ _ _ hne (by omega) (by omega) (by omega)
          ht0 ht1 FaceDir.top ⟨by dsimp only [FaceDir.checkOffset]; omega,
            by dsimp only [FaceDir.checkOffset]; omega,
            by dsimp only [FaceDir.checkOffset]; omega⟩ ?_
        intro d hd
        cases d <;>
          first
            | exact absurd rfl hd
            | (refine ⟨?_, ?_⟩ <;> rintro ⟨g1, g2, g3⟩ <;>
                dsimp only [FaceDir.checkOffset] at g1 g2 g3 <;> omega)
      · refine twoBlock_slotFaceCount_five _ _ _ _ _ _ _ _ hne (by omega) (by omega) (by omega)
          ht0 ht1 FaceDir.front ⟨by dsimp only [FaceDir.checkOffset]; omega,
            by dsimp only [FaceDir.checkOffset]; omega,
            by dsimp only [FaceDir.checkOffset]; omega⟩ ?_
        intro d hd
        cases d <;>
          first
            | exact absurd rfl hd
            | (refine ⟨?_, ?_⟩ <;> rintro ⟨g1, g2, g3⟩ <;>
                dsimp only [FaceDir.checkOffset] at g1 g2 g3 <;> omega)
    have hf1 : (twoBlockChunk x0 y0 z0 x1 y1 z1 t0 t1).slotFaceCount x1 y1 z1 = 5 := by
      rcases hadj with ⟨rfl, rfl, rfl⟩ | ⟨rfl, rfl, rfl⟩ | ⟨rfl, rfl, rfl⟩
      · refine twoBlock_slotFaceCount_five' _ _ _ _ _ _ _ _ hne (by omega) (by omega) (by omega)
          ht0 ht1 FaceDir.left ⟨by dsimp only [FaceDir.checkOffset]; omega,
            by dsimp only [FaceDir.checkOffset]; omega,
            by dsimp only [FaceDir.checkOffset]; omega⟩ ?_
        intro d hd
        cases d <;>
          first
            | exact absurd rfl hd
            | (refine ⟨?_, ?_⟩ <;> rintro ⟨g1, g2, g3⟩ <;>
                dsimp only [FaceDir.checkOffset] at g1 g2 g3 <;> omega)
      · refine twoBlock_slotFaceCount_five' _ _ _ _ _ _ _ _ hne (by omega) (by omega) (by omega)
          ht0 ht1 FaceDir.bottom ⟨by dsimp only [FaceDir.checkOffset]; omega,
            by dsimp only [FaceDir.checkOffset]; omega,
            by dsimp only [FaceDir.checkOffset]; omega⟩ ?_
        intro d hd
        cases d <;>
          first
            | exact absurd rfl hd
            | (refine ⟨?_, ?_⟩ <;> rintro ⟨g1, g2, g3⟩ <;>
                dsimp only [FaceDir.checkOffset] at g1 g2 g3 <;> omega)
      · refine twoBlock_slotFaceCount_five' _ _ _ _ _ _ _ _ hne (by omega) (by omega) (by omega)
          ht0 ht1 FaceDir.back ⟨by dsimp only [FaceDir.checkOffset]; omega,
            by dsimp only [FaceDir.checkOffset]; omega,
            by dsimp only [FaceDir.checkOffset]; omega⟩ ?_
        intro d hd
        cases d <;>
          first
            | exact absurd rfl hd
            | (refine ⟨?_, ?_⟩ <;> rintro ⟨g1, g2, g3⟩ <;>
                dsimp only [FaceDir.checkOffset] at g1 g2 g3 <;> omega)
    dsimp only
    rw [hf0, hf1]
  · intro p hp hps
    obtain ⟨a, b, c'⟩ := p
    simp only [Finset.mem_insert, Finset.mem_singleton, Prod.mk.injEq, not_or] at hps
    apply slotFaceCount_two_ne
    · intro hc
      exact hps.1 ⟨hc.1, hc.2.1, hc.2.2⟩
    · intro hc
      exact hps.2 ⟨hc.1, hc.2.1, hc.2.2⟩

/-- C4: a chunk holding exactly one solid voxel at an interior slot meshes to
exactly 6 quads (36 indices, two triangles each); a chunk holding exactly two
solid voxels adjacent along one axis at interior slots meshes to exactly 10
quads, the two halves of the shared internal face being omitted. -/
theorem mesh_cull_counts :
    (∀ (x0 y0 z0 : ℕ) (t : BlockType),
      1 ≤ x0 → x0 ≤ 14 → 1 ≤ y0 → y0 ≤ 126 → 1 ≤ z0 → z0 ≤ 14 →
      Block.isBlockSolid t = true →
      (singleBlockChunk x0 y0 z0 t).buildMeshQuads.length = 6 ∧
      (singleBlockChunk x0 y0 z0 t).meshIndexCount = 36) ∧
    (∀ (x0 y0 z0 x1 y1 z1 : ℕ) (t0 t1 : BlockType),
      1 ≤ x0 → x0 ≤ 14 → 1 ≤ y0 → y0 ≤ 126 → 1 ≤ z0 → z0 ≤ 14 →
      1 ≤ x1 → x1 ≤ 14 → 1 ≤ y1 → y1 ≤ 126 → 1 ≤ z1 → z1 ≤ 14 →
      ((x1 = x0 + 1 ∧ y1 = y0 ∧ z1 = z0) ∨ (x1 = x0 ∧ y1 = y0 + 1 ∧ z1 = z0) ∨
        (x1 = x0 ∧ y1 = y0 ∧ z1 = z0 + 1)) →
      Block.isBlockSolid t0 = true → Block.isBlockSolid t1 = true →
      (twoBlockChunk x0 y0 z0 x1 y1 z1 t0 t1).buildMeshQuads.length = 10) := by
  constructor
  · intro x0 y0 z0 t hx1 hx2 hy1 hy2 hz1 hz2 ht
    have h6 := singleBlock_count x0 y0 z0 t hx1 hx2 hy1 hy2 hz1 hz2 (solid_ne_air t ht)
    refine ⟨h6, ?_⟩
    rw [Chunk.meshIndexCount, h6]
  · intro x0 y0 z0 x1 y1 z1 t0 t1 hx01 hx02 hy01 hy02 hz01 hz02 hx11 hx12
      hy11 hy12 hz11 hz12 hadj ht0 ht1
    exact twoBlock_count x0 y0 z0 x1 y1 z1 t0 t1 hx01 hx02 hy01 hy02 hz01 hz02
      hx11 hx12 hy11 hy12 hz11 hz12 hadj (solid_ne_air t0 ht0) (solid_ne_air t1 ht1)

/-- Witness for the quad counts: a lone Stone block at (8,64,8) gives 6 quads
and 36 indices; Stone blocks at (8,64,8) and (9,64,8) give 10 quads. -/
theorem mesh_cull_counts_witness :
    Block.isBlockSolid BlockType.STONE = true ∧
    ((singleBlockChunk 8 64 8 BlockType.STONE).buildMeshQuads.length = 6 ∧
      (singleBlockChunk 8 64 8 BlockType.STONE).meshIndexCount = 36) ∧
    (twoBlockChunk 8 64 8 9 64 8 BlockType.STONE BlockType.STONE).buildMeshQuads.length = 10 :=
  ⟨by decide,
    mesh_cull_counts.1 8 64 8 BlockType.STONE (by decide) (by decide) (by decide) (by decide)
      (by decide) (by decide) (by decide),
    mesh_cull_counts.2 8 64 8 9 64 8 BlockType.STONE BlockType.STONE (by decide) (by decide)
      (by decide) (by decide) (by decide) (by decide) (by decide) (by decide) (by decide)
      (by decide) (by decide) (by decide) (Or.inl (by decide)) (by decide) (by decide)⟩

/-! ### Face colors (C9) -/

/-- C9 (amended): every quad buildMesh emits carries the getBlockColor
result of its own voxel — the block stored at the quad's own position,
recovered from the quad's world coordinates — with the face tag of its
orientation: +Y faces use the declared top color (falling back to the base
color), -Y faces the declared bottom color (falling back to the base
color), and the four lateral faces always use the base color — a declared
sideColor is never consulted, because the lateral entries of the faces
table carry no face field and getBlockColor defaults to the base color. -/
theorem quad_colors (c : Chunk) (q : Quad) (hq : q ∈ c.buildMeshQuads) :
    ∃ block : Block,
      c.blocks (q.blockX - c.x * c.size) q.blockY (q.blockZ - c.z * c.size) = some block ∧
      block.type ≠ BlockType.AIR ∧
      q.color = Block.getBlockColor block.type q.dir.tag ∧
      (q.dir = FaceDir.top →
        q.color = (BlockData block.type).topColor.getD (BlockData block.type).color) ∧
      (q.dir = FaceDir.bottom →
        q.color = (BlockData block.type).bottomColor.getD (BlockData block.type).color) ∧
      (q.dir ≠ FaceDir.top → q.dir ≠ FaceDir.bottom →
        q.color = (BlockData block.type).color) := by
  rw [mem_buildMeshQuads] at hq
  obtain ⟨x, y, z, hx, hy, hz, block, hb, hair, hq⟩ := hq
  rw [mem_addBlockFaces] at hq
  obtain ⟨d, hr, rfl⟩ := hq
  have e1 : c.x * c.size + (x : ℤ) - c.x * c.size = (x : ℤ) := by ring
  have e2 : c.z * c.size + (z : ℤ) - c.z * c.size = (z : ℤ) := by ring
  refine ⟨block, ?_, hair, rfl, ?_, ?_, ?_⟩
  · dsimp only
    rw [e1, e2]
    exact hb
  · intro hd
    simp only at hd
    subst hd
    simp [Block.getBlockColor, FaceDir.tag]
  · intro hd
    simp only at hd
    subst hd
    simp [Block.getBlockColor, FaceDir.tag]
  · intro hd1 hd2
    simp only at hd1 hd2 ⊢
    cases d
    · simp [Block.getBlockColor, FaceDir.tag]
    · simp [Block.getBlockColor, FaceDir.tag]
    · exact absurd rfl hd1
    · exact absurd rfl hd2
    · simp [Block.getBlockColor, FaceDir.tag]
    · simp [Block.getBlockColor, FaceDir.tag]

/-- Witness for the face-color rule: the +X face of a lone Grass block
carries the getBlockColor result of the Grass voxel stored at the quad's
own position — the base color 0x7CB342. -/
theorem quad_colors_witness :
    ((⟨8, 64, 8, FaceDir.right, 0x7CB342⟩ : Quad) ∈
      (singleBlockChunk 8 64 8 BlockType.GRASS).buildMeshQuads) ∧
    (∃ block : Block,
      (singleBlockChunk 8 64 8 BlockType.GRASS).blocks
        ((⟨8, 64, 8, FaceDir.right, 0x7CB342⟩ : Quad).blockX -
          (singleBlockChunk 8 64 8 BlockType.GRASS).x *
            (singleBlockChunk 8 64 8 BlockType.GRASS).size)
        (⟨8, 64, 8, FaceDir.right, 0x7CB342⟩ : Quad).blockY
        ((⟨8, 64, 8, FaceDir.right, 0x7CB342⟩ : Quad).blockZ -
          (singleBlockChunk 8 64 8 BlockType.GRASS).z *
            (singleBlockChunk 8 64 8 BlockType.GRASS).size) = some block ∧
      block.type ≠ BlockType.AIR ∧
      (⟨8, 64, 8, FaceDir.right, 0x7CB342⟩ : Quad).color =
        Block.getBlockColor block.type (⟨8, 64, 8, FaceDir.right, 0x7CB342⟩ : Quad).dir.tag ∧
      ((⟨8, 64, 8, FaceDir.right, 0x7CB342⟩ : Quad).dir = FaceDir.top →
        (⟨8, 64, 8, FaceDir.right, 0x7CB342⟩ : Quad).color =
          (BlockData block.type).topColor.getD (BlockData block.type).color) ∧
      ((⟨8, 64, 8, FaceDir.right, 0x7CB342⟩ : Quad).dir = FaceDir.bottom →
        (⟨8, 64, 8, FaceDir.right, 0x7CB342⟩ : Quad).color =
          (BlockData block.type).bottomColor.getD (BlockData block.type).color) ∧
      ((⟨8, 64, 8, FaceDir.right, 0x7CB342⟩ : Quad).dir ≠ FaceDir.top →
        (⟨8, 64, 8, FaceDir.right, 0x7CB342⟩ : Quad).dir ≠ FaceDir.bottom →
        (⟨8, 64, 8, FaceDir.right, 0x7CB342⟩ : Quad).color =
          (BlockData block.type).color)) := by
  have hmem : (⟨8, 64, 8, FaceDir.right, 0x7CB342⟩ : Quad) ∈
      (singleBlockChunk 8 64 8 BlockType.GRASS).buildMeshQuads :=
    mem_buildMeshQuads.mpr ⟨8, 64, 8, by decide, by decide, by decide,
      ⟨BlockType.GRASS, 8, 64, 8⟩, by decide, by decide,
      mem_addBlockFaces.mpr ⟨FaceDir.right, by decide, by decide⟩⟩
  exact ⟨hmem, quad_colors (singleBlockChunk 8 64 8 BlockType.GRASS) _ hmem⟩

/-- Counterexample to C9 as stated: Grass declares sideColor 0x8BC34A, yet
the emitted +X (lateral) face of a Grass block carries the base color
0x7CB342, and no quad with the declared side color is emitted at all. -/
theorem grass_side_color_counterexample :
    (BlockData BlockType.GRASS).sideColor = some 0x8BC34A ∧
    (0x7CB342 : ℕ) ≠ 0x8BC34A ∧
    ((⟨8, 64, 8, FaceDir.right, 0x7CB342⟩ : Quad) ∈
      (singleBlockChunk 8 64 8 BlockType.GRASS).buildMeshQuads) ∧
    ((⟨8, 64, 8, FaceDir.right, 0x8BC34A⟩ : Quad) ∉
      (singleBlockChunk 8 64 8 BlockType.GRASS).buildMeshQuads) := by
  refine ⟨by decide, by decide, ?_, ?_⟩
  · exact mem_buildMeshQuads.mpr ⟨8, 64, 8, by decide, by decide, by decide,
      ⟨BlockType.GRASS, 8, 64, 8⟩, by decide, by decide,
      mem_addBlockFaces.mpr ⟨FaceDir.right, by decide, by decide⟩⟩
  · intro hmem
    rw [mem_buildMeshQuads] at hmem
    obtain ⟨x', y', z', hx', hy', hz', block', hb', hair', hq⟩ := hmem
    rw [mem_addBlockFaces] at hq
    obtain ⟨d', hr, heq⟩ := hq
    have hblock : block' = ⟨BlockType.GRASS, 8, 64, 8⟩ := by
      unfold singleBlockChunk at hb'
      dsimp only at hb'
      by_cases hc : ((x' : ℤ) = (8 : ℕ) ∧ (y' : ℤ) = (64 : ℕ) ∧ (z' : ℤ) = (8 : ℕ))
      · rw [if_pos hc] at hb'
        exact (Option.some.injEq _ _ ▸ hb').symm
      · rw [if_neg hc] at hb'
        exact absurd hb' (by simp)
    subst hblock
    simp only [Quad.mk.injEq] at heq
    obtain ⟨-, -, -, hed, hec⟩ := heq
    subst hed
    revert hec
    decide

/-! ### Out-of-range block access (C8) -/

/-- C8: when y is outside [0, chunkHeight) or the containing chunk is not
loaded, getBlock returns none, isBlockSolid returns false, and setBlock
returns false leaving the world state unchanged; no fault is signalled
(all three are total functions). -/
theorem out_of_range_access (w : World.State) (x y z : ℤ) (bt : Option BlockType)
    (h : y < 0 ∨ y ≥ World.chunkHeight ∨
      tableGet w.chunks (World.chunkCoord x, World.chunkCoord z) = none) :
    World.getBlock w x y z = none ∧
    World.isBlockSolid w x y z = false ∧
    World.setBlock w x y z bt = (w, false) := by
  have hg : World.getBlock w x y z = none := by
    unfold World.getBlock
    rcases h with h | h | h
    · rw [if_pos (Or.inl h)]
    · rw [if_pos (Or.inr h)]
    · by_cases hy : y < 0 ∨ y ≥ World.chunkHeight
      · rw [if_pos hy]
      · rw [if_neg hy, h, Option.elim_none]
  have hs : World.isBlockSolid w x y z = false := by
    unfold World.isBlockSolid
    rw [hg, Option.elim_none]
  have hset : World.setBlock w x y z bt = (w, false) := by
    unfold World.setBlock
    rcases h with h | h | h
    · rw [if_pos (Or.inl h)]
    · rw [if_pos (Or.inr h)]
    · by_cases hy : y < 0 ∨ y ≥ World.chunkHeight
      · rw [if_pos hy]
      · rw [if_neg hy, h, Option.elim_none]
  exact ⟨hg, hs, hset⟩

/-- Witness for the out-of-range behavior: y = -1 in the flat one-chunk
world, and a far-away unloaded chunk at x = 1000. -/
theorem out_of_range_access_witness :
    ((-1 : ℤ) < 0 ∨ (-1 : ℤ) ≥ World.chunkHeight ∨
      tableGet flatWorld.chunks (World.chunkCoord 0, World.chunkCoord 0) = none) ∧
    (World.getBlock flatWorld 0 (-1) 0 = none ∧
      World.isBlockSolid flatWorld 0 (-1) 0 = false ∧
      World.setBlock flatWorld 0 (-1) 0 (some BlockType.STONE) = (flatWorld, false)) ∧
    (tableGet flatWorld.chunks (World.chunkCoord 1000, World.chunkCoord 0) = none) ∧
    (World.getBlock flatWorld 1000 5 0 = none ∧
      World.isBlockSolid flatWorld 1000 5 0 = false ∧
      World.setBlock flatWorld 1000 5 0 (some BlockType.STONE) = (flatWorld, false)) :=
  ⟨Or.inl (by decide),
    out_of_range_access flatWorld 0 (-1) 0 (some BlockType.STONE) (Or.inl (by decide)),
    rfl,
    out_of_range_access flatWorld 1000 5 0 (some BlockType.STONE)
      (Or.inr (Or.inr rfl))⟩

/-! ### Chunk table and streaming (C2, C6) -/

lemma tableGet_nil (k : ℤ × ℤ) : tableGet [] k = none := rfl

lemma tableGet_cons (e : (ℤ × ℤ) × Chunk) (t : ChunkTable) (k : ℤ × ℤ) :
    tableGet (e :: t) k = if e.1 = k then some e.2 else tableGet t k := rfl

lemma tableGet_append (t l : ChunkTable) (k : ℤ × ℤ) (h : tableGet t k = none) :
    tableGet (t ++ l) k = tableGet l k := by
  induction t with
  | nil => rw [List.nil_append]
  | cons e t ih =>
    rw [tableGet_cons] at h
    rw [List.cons_append, tableGet_cons]
    by_cases he : e.1 = k
    · rw [if_pos he] at h
      simp at h
    · rw [if_neg he] at h ⊢
      exact ih h

lemma tableGet_map_replace (t : ChunkTable) (k : ℤ × ℤ) (v : Chunk) (q : ℤ × ℤ) :
    tableGet (t.map fun e => if e.1 = k then (k, v) else e) q =
      if q = k then (if (tableGet t k).isSome then some v else none)
      else tableGet t q := by
  induction t with
  | nil =>
    rw [List.map_nil, tableGet_nil, tableGet_nil]
    split_ifs <;> simp_all
  | cons e t ih =>
    rw [List.map_cons]
    by_cases he : e.1 = k
    · by_cases hq : q = k
      · subst hq
        rw [if_pos he, tableGet_cons,
          if_pos (show ((q, v) : (ℤ × ℤ) × Chunk).1 = q from rfl), if_pos rfl,
          tableGet_cons, if_pos he]
        simp
      · rw [if_pos he, tableGet_cons,
          if_neg (show ¬((k, v) : (ℤ × ℤ) × Chunk).1 = q from fun hh => hq hh.symm),
          ih, if_neg hq, if_neg hq, tableGet_cons,
          if_neg (show ¬e.1 = q from by rw [he]; exact fun hh => hq hh.symm)]
    · by_cases hq : q = k
      · subst hq
        rw [if_neg he, tableGet_cons, if_neg he, ih, if_pos rfl, if_pos rfl,
          tableGet_cons, if_neg he]
      · rw [if_neg he, tableGet_cons]
        by_cases heq : e.1 = q
        · rw [if_pos heq, if_neg hq, tableGet_cons, if_pos heq]
        · rw [if_neg heq, ih, if_neg hq, if_neg hq, tableGet_cons, if_neg heq]

lemma tableGet_append_of_some (t l : ChunkTable) (k : ℤ × ℤ) (c : Chunk)
    (h : tableGet t k = some c) : tableGet (t ++ l) k = some c := by
  induction t with
  | nil => simp [tableGet_nil] at h
  | cons e t ih =>
    rw [tableGet_cons] at h
    rw [List.cons_append, tableGet_cons]
    by_cases he : e.1 = k
    · rw [if_pos he] at h ⊢
      exact h
    · rw [if_neg he] at h ⊢
      exact ih h

lemma tableGet_tableSet (t : ChunkTable) (k : ℤ × ℤ) (v : Chunk) (q : ℤ × ℤ) :
    tableGet (tableSet t k v) q = if q = k then some v else tableGet t q := by
  unfold tableSet
  by_cases hs : (tableGet t k).isSome
  · rw [if_pos hs, tableGet_map_replace, if_pos hs]
  · rw [if_neg hs]
    have hnone : tableGet t k = none := by
      rcases hh : tableGet t k with _ | c
      · rfl
      · rw [hh] at hs
        simp at hs
    by_cases hq : q = k
    · subst hq
      rw [tableGet_append _ _ _ hnone, tableGet_cons, if_pos rfl, if_pos rfl]
    · rw [if_neg hq]
      rcases hh : tableGet t q with _ | c
      · rw [tableGet_append _ _ _ hh, tableGet_cons,
          if_neg (show ¬((k, v) : (ℤ × ℤ) × Chunk).1 = q from fun hc => hq hc.symm),
          tableGet_nil]
      · exact tableGet_append_of_some _ _ _ _ hh

lemma tableGet_filter (t : ChunkTable) (p : ℤ × ℤ → Bool) (q : ℤ × ℤ) :
    tableGet (t.filter fun e => p e.1) q = if p q then tableGet t q else none := by
  induction t with
  | nil =>
    rw [List.filter_nil, tableGet_nil]
    split_ifs <;> rfl
  | cons e t ih =>
    rw [List.filter_cons]
    by_cases hp : p e.1 = true
    · rw [if_pos (by simpa using hp), tableGet_cons]
      by_cases heq : e.1 = q
      · subst heq
        rw [if_pos rfl, if_pos hp, tableGet_cons, if_pos rfl]
      · rw [if_neg heq, ih, tableGet_cons, if_neg heq]
    · rw [if_neg (by simpa using hp), ih, tableGet_cons]
      by_cases heq : e.1 = q
      · subst heq
        rw [if_pos rfl]
        rw [if_neg (by simpa using hp), if_neg (by simpa using hp)]
      · rw [if_neg heq]

lemma foldl_preserve {α β : Type} (P : α → Prop) (f : α → β → α) (l : List β) (a : α)
    (h0 : P a) (hf : ∀ s b, P s → P (f s b)) : P (l.foldl f a) := by
  induction l generalizing a with
  | nil => exact h0
  | cons b l ih => exact ih (f a b) (hf a b h0)

lemma setBlock_tableGet_isSome (w : World.State) (x y z : ℤ) (bt : Option BlockType)
    (q : ℤ × ℤ) :
    (tableGet (World.setBlock w x y z bt).1.chunks q).isSome =
      (tableGet w.chunks q).isSome := by
  unfold World.setBlock
  by_cases hy : y < 0 ∨ y ≥ World.chunkHeight
  · rw [if_pos hy]
  · rw [if_neg hy]
    rcases hc : tableGet w.chunks (World.chunkCoord x, World.chunkCoord z) with _ | chunk
    · rw [Option.elim_none]
    · rw [Option.elim_some]
      dsimp only
      rw [tableGet_tableSet]
      by_cases hq : q = (World.chunkCoord x, World.chunkCoord z)
      · rw [if_pos hq, hq, hc]
        rfl
      · rw [if_neg hq]

lemma generateTree_tableGet_isSome (rng : ℕ → ℚ) (n : ℕ) (w : World.State) (x y z : ℤ)
    (biome : Option Biome) (q : ℤ × ℤ) :
    (tableGet (World.generateTree rng n w x y z biome).1.chunks q).isSome =
      (tableGet w.chunks q).isSome := by
  unfold World.generateTree
  dsimp only
  split_ifs
  · rfl
  all_goals
    apply foldl_preserve
      (fun s : World.State × ℕ =>
        (tableGet s.1.chunks q).isSome = (tableGet w.chunks q).isSome) <;>
    first
      | (apply foldl_preserve
          (fun s : World.State × ℕ =>
            (tableGet s.1.chunks q).isSome = (tableGet w.chunks q).isSome)
         · rfl
         · intro s b hs
           dsimp only
           rw [setBlock_tableGet_isSome]
           exact hs)
      | (intro s b hs
         dsimp only
         split_ifs
         · exact hs
         · rw [setBlock_tableGet_isSome]
           exact hs
         · exact hs
         · exact hs)

lemma generateChunk_tableGet_isSome (rng : ℕ → ℚ) (n : ℕ) (w : World.State) (cx cz : ℤ)
    (q : ℤ × ℤ) :
    ((tableGet (World.generateChunk rng n w cx cz).1.chunks q).isSome = true) ↔
      (q = (cx, cz) ∨ (tableGet w.chunks q).isSome = true) := by
  unfold World.generateChunk
  dsimp only
  rw [tableGet_tableSet]
  by_cases hq : q = (cx, cz)
  · rw [if_pos hq]
    simp [hq]
  · rw [if_neg hq]
    have hiff : ∀ r : Chunk × World.State × ℕ,
        (tableGet r.2.1.chunks q).isSome = (tableGet w.chunks q).isSome →
        ((tableGet r.2.1.chunks q).isSome = true ↔
          (q = (cx, cz) ∨ (tableGet w.chunks q).isSome = true)) := by
      intro r hr
      rw [hr]
      simp [hq]
    apply hiff
    apply foldl_preserve
      (fun s : Chunk × World.State × ℕ =>
        (tableGet s.2.1.chunks q).isSome = (tableGet w.chunks q).isSome)
    · rfl
    · intro s b hs
      dsimp only
      split_ifs
      · rw [generateTree_tableGet_isSome]
        exact hs
      · exact hs
      · exact hs

lemma genLoop_isSome (rng : ℕ → ℚ) (L : List (ℤ × ℤ)) (s : World.State × ℕ) (q : ℤ × ℤ) :
    ((tableGet (L.foldl
        (fun (s : World.State × ℕ) k =>
          if (tableGet s.1.chunks k).isSome then s
          else World.generateChunk rng s.2 s.1 k.1 k.2) s).1.chunks q).isSome = true) ↔
      ((tableGet s.1.chunks q).isSome = true ∨ q ∈ L) := by
  induction L generalizing s with
  | nil => simp
  | cons k L ih =>
    rw [List.foldl_cons, ih, List.mem_cons]
    by_cases hk : (tableGet s.1.chunks k).isSome = true
    · rw [if_pos hk]
      constructor
      · rintro (h | h)
        · exact Or.inl h
        · exact Or.inr (Or.inr h)
      · rintro (h | rfl | h)
        · exact Or.inl h
        · exact Or.inl hk
        · exact Or.inr h
    · rw [if_neg hk]
      rw [generateChunk_tableGet_isSome]
      constructor
      · rintro ((rfl | h) | h)
        · exact Or.inr (Or.inl rfl)
        · exact Or.inl h
        · exact Or.inr (Or.inr h)
      · rintro (h | rfl | h)
        · exact Or.inl (Or.inr h)
        · exact Or.inl (Or.inl rfl)
        · exact Or.inr h

lemma mem_square {a1 b1 a2 b2 : ℤ} {q : ℤ × ℤ} :
    q ∈ ((intRange a1 b1).flatMap fun x => (intRange a2 b2).map fun z => (x, z)) ↔
      (a1 ≤ q.1 ∧ q.1 ≤ b1 ∧ a2 ≤ q.2 ∧ q.2 ≤ b2) := by
  rw [List.mem_flatMap]
  constructor
  · rintro ⟨x, hx, hm⟩
    rw [List.mem_map] at hm
    obtain ⟨z, hz, rfl⟩ := hm
    rw [mem_intRange] at hx hz
    exact ⟨hx.1, hx.2, hz.1, hz.2⟩
  · rintro ⟨h1, h2, h3, h4⟩
    refine ⟨q.1, mem_intRange.mpr ⟨h1, h2⟩, List.mem_map.mpr ⟨q.2, mem_intRange.mpr ⟨h3, h4⟩, ?_⟩⟩
    exact Prod.mk.eta

/-- C2: immediately after updateChunks at observer position p with chunk
coordinate C, the chunk table holds a chunk at every coordinate within
Chebyshev distance renderDistance of C, and holds none at any coordinate
beyond renderDistance + 2. -/
theorem chunk_streaming (rng : ℕ → ℚ) (n : ℕ) (w : World.State) (px pz : ℚ) (q : ℤ × ℤ) :
    (World.chebDist q (⌊px / (World.chunkSize : ℚ)⌋, ⌊pz / (World.chunkSize : ℚ)⌋) ≤
        World.renderDistance →
      (tableGet (World.updateChunks rng n w px pz).1.chunks q).isSome = true) ∧
    (World.chebDist q (⌊px / (World.chunkSize : ℚ)⌋, ⌊pz / (World.chunkSize : ℚ)⌋) >
        World.renderDistance + 2 →
      tableGet (World.updateChunks rng n w px pz).1.chunks q = none) := by
  unfold World.updateChunks
  dsimp only
  constructor
  · intro hnear
    rw [tableGet_filter _
      (fun k => decide (World.chebDist k (⌊px / (World.chunkSize : ℚ)⌋,
        ⌊pz / (World.chunkSize : ℚ)⌋) ≤ World.renderDistance + 2)) q]
    rw [if_pos (by
      simp only [decide_eq_true_eq]
      calc World.chebDist q (⌊px / (World.chunkSize : ℚ)⌋, ⌊pz / (World.chunkSize : ℚ)⌋) ≤
          World.renderDistance := hnear
        _ ≤ World.renderDistance + 2 := by norm_num)]
    rw [genLoop_isSome]
    right
    rw [mem_square]
    simp only [World.chebDist, max_le_iff, abs_le] at hnear
    exact ⟨by omega, by omega, by omega, by omega⟩
  · intro hfar
    rw [tableGet_filter _
      (fun k => decide (World.chebDist k (⌊px / (World.chunkSize : ℚ)⌋,
        ⌊pz / (World.chunkSize : ℚ)⌋) ≤ World.renderDistance + 2)) q]
    rw [if_neg (by
      simp only [decide_eq_true_eq, not_le]
      exact hfar)]

/-- Witness for streaming: from an empty world at the origin, the origin
chunk is present after update and the chunk at (11, 0) is absent. -/
theorem chunk_streaming_witness :
    (World.chebDist (0, 0) (⌊(0 : ℚ) / (World.chunkSize : ℚ)⌋,
        ⌊(0 : ℚ) / (World.chunkSize : ℚ)⌋) ≤ World.renderDistance ∧
      (tableGet (World.updateChunks (fun _ => 0) 0 emptyWorld 0 0).1.chunks (0, 0)).isSome =
        true) ∧
    (World.chebDist (11, 0) (⌊(0 : ℚ) / (World.chunkSize : ℚ)⌋,
        ⌊(0 : ℚ) / (World.chunkSize : ℚ)⌋) > World.renderDistance + 2 ∧
      tableGet (World.updateChunks (fun _ => 0) 0 emptyWorld 0 0).1.chunks (11, 0) = none) :=
  ⟨⟨by norm_num [World.chebDist, World.chunkSize, World.renderDistance],
    (chunk_streaming (fun _ => 0) 0 emptyWorld 0 0 (0, 0)).1
      (by norm_num [World.chebDist, World.chunkSize, World.renderDistance])⟩,
   ⟨by norm_num [World.chebDist, World.chunkSize, World.renderDistance],
    (chunk_streaming (fun _ => 0) 0 emptyWorld 0 0 (11, 0)).2
      (by norm_num [World.chebDist, World.chunkSize, World.renderDistance])⟩⟩

/-! ### Chunk generation writes no trees into the new chunk (C6) -/

lemma terrainBlockType_no_tree (height : ℤ) (biome : Biome) (y : ℤ) :
    World.terrainBlockType height biome y ≠ BlockType.WOOD ∧
    World.terrainBlockType height biome y ≠ BlockType.LEAVES := by
  unfold World.terrainBlockType
  split_ifs <;> exact ⟨by decide, by decide⟩

/-- Grids holding no Wood and no Leaves anywhere. -/
def GridNoTree (c : Chunk) : Prop :=
  ∀ (a b c' : ℤ) (bl : Block), c.blocks a b c' = some bl →
    bl.type ≠ BlockType.WOOD ∧ bl.type ≠ BlockType.LEAVES

lemma chunkSetBlock_no_tree (c : Chunk) (x y z : ℤ) (b : Option Block)
    (hc : GridNoTree c)
    (hb : ∀ bl : Block, b = some bl →
      bl.type ≠ BlockType.WOOD ∧ bl.type ≠ BlockType.LEAVES) :
    GridNoTree (c.setBlock x y z b) := by
  unfold Chunk.setBlock
  split_ifs with h
  · exact hc
  · intro a b' c' bl hbl
    dsimp only at hbl
    split_ifs at hbl with hm
    · exact hb bl hbl
    · exact hc a b' c' bl hbl

lemma setBlockInChunk_no_tree (c : Chunk) (x y z : ℤ) (t : BlockType)
    (hc : GridNoTree c) (ht : t ≠ BlockType.WOOD ∧ t ≠ BlockType.LEAVES) :
    GridNoTree (World.setBlockInChunk c x y z t) := by
  unfold World.setBlockInChunk
  split_ifs with h
  · exact hc
  · refine chunkSetBlock_no_tree c x y z _ hc ?_
    intro bl hbl
    simp only [Option.some.injEq] at hbl
    subst hbl
    exact ht

lemma generateTerrain_no_tree (wx wz : ℚ) (height : ℤ) (biome : Biome) (c : Chunk)
    (x z : ℤ) (hc : GridNoTree c) :
    GridNoTree (World.generateTerrain wx wz height biome c x z) := by
  unfold World.generateTerrain
  apply foldl_preserve GridNoTree _ _ _ hc
  intro s yn hs
  exact setBlockInChunk_no_tree _ _ _ _ _ hs (terrainBlockType_no_tree height biome (yn : ℤ))

/-- C6: while generateChunk runs, the chunk under construction is not yet in
the chunk table, so every World.setBlock aimed at a world coordinate whose
chunk is the one being generated fails and changes nothing; consequently the
chunk generateChunk registers contains no Wood and no Leaves voxels, for
every random stream and every draw position. -/
theorem generateChunk_no_trees (rng : ℕ → ℚ) (n : ℕ) (w : World.State) (cx cz : ℤ)
    (h : tableGet w.chunks (cx, cz) = none) :
    (∀ w' : World.State, tableGet w'.chunks (cx, cz) = none →
      ∀ (x y z : ℤ) (bt : Option BlockType),
        World.chunkCoord x = cx → World.chunkCoord z = cz →
        (World.setBlock w' x y z bt).2 = false) ∧
    (∃ c : Chunk,
      tableGet (World.generateChunk rng n w cx cz).1.chunks (cx, cz) = some c ∧
      ∀ (lx ly lz : ℤ) (bl : Block), c.blocks lx ly lz = some bl →
        bl.type ≠ BlockType.WOOD ∧ bl.type ≠ BlockType.LEAVES) := by
  constructor
  · intro w' hw' x y z bt hcx hcz
    unfold World.setBlock
    by_cases hy : y < 0 ∨ y ≥ World.chunkHeight
    · rw [if_pos hy]
    · rw [if_neg hy, hcx, hcz, hw', Option.elim_none]
  · unfold World.generateChunk
    dsimp only
    rw [tableGet_tableSet, if_pos rfl]
    refine ⟨_, rfl, ?_⟩
    exact foldl_preserve (fun st : Chunk × World.State × ℕ => GridNoTree st.1) _ _ _
      (fun a b c' bl hbl => by simp at hbl)
      (fun s b hs => by
        dsimp only
        split_ifs <;> dsimp only <;> exact generateTerrain_no_tree _ _ _ _ _ _ _ hs)

/-- Witness for tree-free generation: generating chunk (0,0) in the empty
world with a constant random stream. -/
theorem generateChunk_no_trees_witness :
    tableGet emptyWorld.chunks (0, 0) = none ∧
    ((∀ w' : World.State, tableGet w'.chunks (0, 0) = none →
      ∀ (x y z : ℤ) (bt : Option BlockType),
        World.chunkCoord x = 0 → World.chunkCoord z = 0 →
        (World.setBlock w' x y z bt).2 = false) ∧
    (∃ c : Chunk,
      tableGet (World.generateChunk (fun _ => 0) 0 emptyWorld 0 0).1.chunks (0, 0) = some c ∧
      ∀ (lx ly lz : ℤ) (bl : Block), c.blocks lx ly lz = some bl →
        bl.type ≠ BlockType.WOOD ∧ bl.type ≠ BlockType.LEAVES)) :=
  ⟨rfl, generateChunk_no_trees (fun _ => 0) 0 emptyWorld 0 0 rfl⟩

/-! ### Resting player physics (C1) -/

lemma scanSolid_eq_true_iff (w : World.State) (xs : List ℤ) (y : ℤ) (zs : List ℤ) :
    Player.scanSolid w xs y zs = true ↔
      ∃ x ∈ xs, ∃ z ∈ zs, World.isBlockSolid w x y z = true := by
  unfold Player.scanSolid
  simp [List.any_eq_true]

lemma scanSolid_eq_false (w : World.State) (xs : List ℤ) (y : ℤ) (zs : List ℤ)
    (h : ∀ x ∈ xs, ∀ z ∈ zs, World.isBlockSolid w x y z = false) :
    Player.scanSolid w xs y zs = false := by
  rw [Bool.eq_false_iff]
  intro hc
  rw [scanSolid_eq_true_iff] at hc
  obtain ⟨x, hx, z, hz, hs⟩ := hc
  rw [h x hx z hz] at hs
  exact absurd hs (by simp)

/-- C1 (amended): from the resting state (integer height, zero velocity,
ground contact, supporting layer solid under the whole footprint, body
volume free), one physics step keeps the position and the zero vertical
velocity but flips ground-contact to false (the descending probe samples the
free feet layer, not the supporting layer below), and the following step
restores the exact original state including ground-contact true; so position
and velocity are invariant every step while the ground flag alternates, and
the two-step composition is the identity. -/
theorem resting_player_step (w : World.State) (p : Player) (dt : ℚ) (y0 : ℤ)
    (hpy : p.py = (y0 : ℚ))
    (hvx : p.vx = 0) (hvy : p.vy = 0) (hvz : p.vz = 0)
    (hog : p.onGround = true)
    (hdt : 0 < dt) (hdt2 : 25 * (dt * dt) ≤ 1)
    (hsolid : ∀ x z : ℤ, ⌊p.px - Player.radius⌋ ≤ x → x ≤ ⌊p.px + Player.radius⌋ →
      ⌊p.pz - Player.radius⌋ ≤ z → z ≤ ⌊p.pz + Player.radius⌋ →
      World.isBlockSolid w x (y0 - 1) z = true ∧ World.isBlockSolid w x y0 z = false) :
    Player.applyPhysics p dt w = { p with onGround := false } ∧
    Player.applyPhysics { p with onGround := false } dt w = p := by
  obtain ⟨px, py, pz, vx, vy, vz, og⟩ := p
  dsimp only at hpy hvx hvy hvz hog hsolid
  subst hpy hvx hvy hvz hog
  have hfree : Player.scanSolid w (intRange ⌊px - Player.radius⌋ ⌊px + Player.radius⌋) y0
      (intRange ⌊pz - Player.radius⌋ ⌊pz + Player.radius⌋) = false := by
    apply scanSolid_eq_false
    intro x hx z hz
    rw [mem_intRange] at hx hz
    exact (hsolid x z hx.1 hx.2 hz.1 hz.2).2
  have hgrav : Player.gravity * dt ≤ 0 := by
    rw [Player.gravity]
    nlinarith
  have hfl : ⌊(y0 : ℚ) + Player.gravity * dt * dt⌋ = y0 - 1 := by
    rw [Player.gravity, Int.floor_eq_iff]
    constructor
    · push_cast
      nlinarith
    · push_cast
      nlinarith
  have hsc : Player.scanSolid w (intRange ⌊px - Player.radius⌋ ⌊px + Player.radius⌋) (y0 - 1)
      (intRange ⌊pz - Player.radius⌋ ⌊pz + Player.radius⌋) = true := by
    rw [scanSolid_eq_true_iff]
    have hrx : ⌊px - Player.radius⌋ ≤ ⌊px + Player.radius⌋ := by
      apply Int.floor_le_floor
      rw [Player.radius]
      linarith
    have hrz : ⌊pz - Player.radius⌋ ≤ ⌊pz + Player.radius⌋ := by
      apply Int.floor_le_floor
      rw [Player.radius]
      linarith
    exact ⟨⌊px - Player.radius⌋, mem_intRange.mpr ⟨le_refl _, hrx⟩,
      ⌊pz - Player.radius⌋, mem_intRange.mpr ⟨le_refl _, hrz⟩,
      (hsolid _ _ (le_refl _) hrx (le_refl _) hrz).1⟩
  constructor
  · unfold Player.applyPhysics Player.handleCollisions
    dsimp only
    simp [hfree]
  · unfold Player.applyPhysics Player.handleCollisions
    dsimp only
    simp [hgrav, hfl, hsc]

/-- Witness for the resting step: the player at (8, 32, 8) over the flat
stone layer at y = 31, stepped at 60 Hz. -/
theorem resting_player_step_witness :
    (0 : ℚ) < 1/60 ∧ 25 * ((1/60 : ℚ) * (1/60)) ≤ 1 ∧
    Player.applyPhysics restingPlayer (1/60) flatWorld =
      { restingPlayer with onGround := false } ∧
    Player.applyPhysics { restingPlayer with onGround := false } (1/60) flatWorld =
      restingPlayer := by
  have hmain := resting_player_step flatWorld restingPlayer (1/60) 32 rfl rfl rfl rfl rfl
    (by norm_num) (by norm_num) ?_
  · exact ⟨by norm_num, by norm_num, hmain.1, hmain.2⟩
  · intro x z hx1 hx2 hz1 hz2
    have e1 : ⌊restingPlayer.px - Player.radius⌋ = 7 := by
      norm_num [restingPlayer, Player.radius]
    have e2 : ⌊restingPlayer.px + Player.radius⌋ = 8 := by
      norm_num [restingPlayer, Player.radius]
    have e3 : ⌊restingPlayer.pz - Player.radius⌋ = 7 := by
      norm_num [restingPlayer, Player.radius]
    have e4 : ⌊restingPlayer.pz + Player.radius⌋ = 8 := by
      norm_num [restingPlayer, Player.radius]
    have hx : x = 7 ∨ x = 8 := by omega
    have hz : z = 7 ∨ z = 8 := by omega
    rcases hx with rfl | rfl <;> rcases hz with rfl | rfl <;> exact ⟨by decide, by decide⟩

/-- Counterexample to C1 as stated: from the resting state the very first
physics step resets ground-contact to false (position and vertical velocity
are preserved), so the step is not idempotent on the ground-contact flag. -/
theorem resting_onGround_flip_counterexample :
    restingPlayer.onGround = true ∧
    (Player.applyPhysics restingPlayer (1/60) flatWorld).py = restingPlayer.py ∧
    (Player.applyPhysics restingPlayer (1/60) flatWorld).vy = 0 ∧
    (Player.applyPhysics restingPlayer (1/60) flatWorld).onGround = false := by
  have key : ∀ px pz : ℚ, ⌊px - Player.radius⌋ = 7 → ⌊px + Player.radius⌋ = 8 →
      ⌊pz - Player.radius⌋ = 7 → ⌊pz + Player.radius⌋ = 8 →
      Player.applyPhysics ⟨px, 32, pz, 0, 0, 0, true⟩ (1/60) flatWorld =
        ⟨px, 32, pz, 0, 0, 0, false⟩ := by
    intro px pz he1 he2 he3 he4
    have hfree : Player.scanSolid flatWorld
        (intRange ⌊px - Player.radius⌋ ⌊px + Player.radius⌋) 32
        (intRange ⌊pz - Player.radius⌋ ⌊pz + Player.radius⌋) = false := by
      rw [he1, he2, he3, he4]
      decide
    unfold Player.applyPhysics Player.handleCollisions
    dsimp only
    simp [hfree, Int.floor_ofNat]
  have e1 : ⌊(8 : ℚ) - Player.radius⌋ = 7 := by norm_num [Player.radius]
  have e2 : ⌊(8 : ℚ) + Player.radius⌋ = 8 := by norm_num [Player.radius]
  have h := key 8 8 e1 e2 e1 e2
  rw [show restingPlayer = ⟨8, 32, 8, 0, 0, 0, true⟩ from rfl, h]
  exact ⟨rfl, rfl, rfl, rfl⟩

/-- Witness for the biome classifier rules at the origin with the identity
permutation table. -/
theorem getBiome_rules_witness :
    World.getBiome id 0 0 =
      classifySpec (World.biomeTemperature id 0 0) (World.biomeHumidity id 0 0) ∧
    World.getBiome id 0 0 ≠ Biomes.OCEAN :=
  getBiome_rules_and_never_ocean id 0 0
